import Mathlib

/-!
A shallow embedding of the ProphecyCM rules core (Python) in Lean 4, together
with theorems checking the natural-language specification against the code.

Modelling conventions:
* Python `int` is `Int`; Python floor division `//` is `Int.fdiv`.
* Python `dict` objects are insertion-ordered association lists
  (`List (String × α)`); keys are unique in every state the code builds.
* Python `float` difficulty multipliers are modelled as `Rat`; Python `int()`
  conversion truncates toward zero (`pyTrunc`).
* Mutating methods are modelled as state-passing functions; a method that can
  raise returns the partially-updated state together with an `Option` error
  (Python mutations performed before the raise survive it).
* `random.Random` is modelled as a finite list of pending integer draws
  (`Rng`); an exhausted list yields 1, so every finite Python execution
  corresponds to some draw list.
* `copy.deepcopy` is the identity on immutable Lean values.
-/

namespace ProphecyCM

/-- Python `d.get(k, default)` on a string-keyed dict. -/
def aget (d : List (String × Int)) (k : String) (default : Int) : Int :=
  match d.find? (fun p => p.1 == k) with
  | some p => p.2
  | none => default

/-- Python `k in d` on a string-keyed dict. -/
def amem (d : List (String × Int)) (k : String) : Bool :=
  d.any (fun p => p.1 == k)

/-- Python `d[k] = v` on a string-keyed dict: update in place if present,
else append (insertion order preserved). -/
def aset (d : List (String × Int)) (k : String) (v : Int) : List (String × Int) :=
  match d with
  | [] => [(k, v)]
  | p :: rest => if p.1 == k then (k, v) :: rest else p :: aset rest k v

/-- The merge helper shared by `_collect_modifiers` implementations:
`modifiers[key] = modifiers.get(key, 0) + int(value)` for each entry of
`source`, in order. -/
def mergeModifiers (modifiers source : List (String × Int)) : List (String × Int) :=
  source.foldl (fun acc p => aset acc p.1 (aget acc p.1 0 + p.2)) modifiers

/-- Python `int()` applied to a rational: truncation toward zero. -/
def pyTrunc (q : ℚ) : Int :=
  if q < 0 then ⌈q⌉ else ⌊q⌋

/-- Python `min(h :: t, key)`: the first element attaining the minimal key. -/
def pyMinBy {α : Type} (key : α → Int) (h : α) (t : List α) : α :=
  t.foldl (fun best x => if key x < key best then x else best) h

/-- `status_effects.py`: `DurationType`. -/
inductive DurationType where
  | turns
  | encounter
  | rest
deriving DecidableEq, Repr

/-- `status_effects.py`: `StackingRule`. -/
inductive StackingRule where
  | stack
  | refresh
  | replace
deriving DecidableEq, Repr

/-- `status_effects.py`: `DispelCondition`. -/
inductive DispelCondition where
  | any
  | magic_only
  | none
deriving DecidableEq, Repr

/-- `status_effects.py`: dataclass `StatusEffect`. -/
structure StatusEffect where
  id : String
  name : String
  duration : Int
  modifiers : List (String × Int) := []
  source : String := ""
  stacking_rule : StackingRule := .stack
  max_stacks : Int := 1
  current_stacks : Int := 1
  duration_type : DurationType := .turns
  dispel_condition : DispelCondition := .any
deriving DecidableEq, Repr

namespace StatusEffect

/-- `StatusEffect.is_active`. -/
def is_active (e : StatusEffect) : Bool :=
  e.duration > 0 || e.duration == -1

/-- `StatusEffect.tick`: decrement a finite positive matching duration, then
report whether the effect is still active. -/
def tick (e : StatusEffect) (tick_type : DurationType) : StatusEffect × Bool :=
  let e' := if e.duration_type = tick_type ∧ e.duration > 0 then
      { e with duration := e.duration - 1 }
    else e
  (e', e'.is_active)

/-- `StatusEffect.can_be_dispelled`. -/
def can_be_dispelled (e : StatusEffect) (dispel_type : DispelCondition) : Bool :=
  if e.dispel_condition = DispelCondition.none then false
  else if e.dispel_condition = DispelCondition.any then true
  else dispel_type == e.dispel_condition

/-- `StatusEffect.combine`: merge an incoming same-id effect into this one,
per the incoming effect's stacking rule. -/
def combine (e incoming : StatusEffect) : StatusEffect :=
  let e := { e with stacking_rule := incoming.stacking_rule,
                    max_stacks := max e.max_stacks incoming.max_stacks }
  match incoming.stacking_rule with
  | .replace =>
      { e with modifiers := incoming.modifiers,
               current_stacks := incoming.current_stacks,
               duration := incoming.duration }
  | .refresh =>
      { e with duration := incoming.duration,
               current_stacks := min incoming.current_stacks e.max_stacks }
  | .stack =>
      { e with current_stacks := min e.max_stacks (e.current_stacks + incoming.current_stacks),
               duration := max e.duration incoming.duration }

/-- `StatusEffect.total_modifiers`: base modifiers times current stacks. -/
def total_modifiers (e : StatusEffect) : List (String × Int) :=
  e.modifiers.map (fun p => (p.1, p.2 * e.current_stacks))

end StatusEffect

/-- `player.py`: dataclass `AbilityScore`. -/
structure AbilityScore where
  name : String := ""
  score : Int := 10
  modifier : Int := 0
  base_score : Option Int := none
deriving DecidableEq, Repr

/-- Python `abilities.get(k, AbilityScore())` on an ability dict. -/
def abilityGet (abilities : List (String × AbilityScore)) (k : String) : AbilityScore :=
  match abilities.find? (fun p => p.1 == k) with
  | some p => p.2
  | none => {}

/-- `creature.py`: dataclass `CreatureAction`. -/
structure CreatureAction where
  name : String
  attack_ability : String := "strength"
  to_hit_bonus : Int := 0
  damage_dice : String := "1d6"
  damage_bonus : Int := 0
  tags : List String := []
deriving DecidableEq, Repr

/-- `creature.py`: dataclass `CreatureTierTemplate`. -/
structure CreatureTierTemplate where
  name : String
  difficulty : String := "standard"
  level_adjustment : Int := 0
  attack_adjustment : Int := 0
  damage_adjustment : Int := 0
  hit_point_adjustment : Int := 0
  armor_class_adjustment : Int := 0
  notes : String := ""
deriving DecidableEq, Repr

/-- `CreatureTierTemplate.effective_level`. -/
def CreatureTierTemplate.effective_level (t : CreatureTierTemplate) (base_level : Int) : Int :=
  max 1 (base_level + t.level_adjustment)

/-- `CreatureTierTemplate.as_modifiers`: nonzero HP/AC adjustments as a dict
(Python truthiness: an adjustment of 0 is omitted). -/
def CreatureTierTemplate.as_modifiers (t : CreatureTierTemplate) : List (String × Int) :=
  (if t.hit_point_adjustment ≠ 0 then [("hit_points", t.hit_point_adjustment)] else []) ++
  (if t.armor_class_adjustment ≠ 0 then [("armor_class", t.armor_class_adjustment)] else [])

/-- `creature.py`: dataclass `Creature`. `base_armor_class` models the private
`_base_armor_class` field that `__post_init__` captures from the authored
armor class. -/
structure Creature where
  id : String
  name : String
  level : Int
  role : String := ""
  hit_die : Int
  armor_class : Int
  abilities : List (String × AbilityScore) := []
  actions : List CreatureAction := []
  alignment : String := ""
  traits : List String := []
  tiers : List CreatureTierTemplate := []
  save_proficiencies : List String := []
  speed : Int := 30
  hit_points : Int := 0
  proficiency_bonus : Int := 2
  saves : List (String × Int) := []
  status_effects : List StatusEffect := []
  current_hit_points : Option Int := none
  is_alive : Bool := true
  applied_tier : Option String := none
  tier_modifiers : List (String × Int) := []
  base_armor_class : Int := 0
deriving DecidableEq, Repr

namespace Creature

/-- `Creature._collect_modifiers`: tier modifiers plus every status effect's
stacked modifiers. -/
def collectModifiers (c : Creature) : List (String × Int) :=
  c.status_effects.foldl (fun m e => mergeModifiers m e.total_modifiers) c.tier_modifiers

/-- `Creature.recompute_statistics`: recompute ability modifiers, proficiency
bonus, hit points, armor class, saves, and clamp current hit points. -/
def recompute_statistics (c : Creature) : Creature :=
  let agg := c.collectModifiers
  let abilities := c.abilities.map (fun p =>
    (p.1, { p.2 with modifier := (p.2.score + aget agg p.1 0 - 10).fdiv 2 }))
  let proficiency_bonus := 2 + (c.level - 1).fdiv 4
  let con_mod := (abilityGet abilities "constitution").modifier
  let dex_mod := (abilityGet abilities "dexterity").modifier
  let wis_mod := (abilityGet abilities "wisdom").modifier
  let avg_hit_per_level := max 1 (c.hit_die.fdiv 2 + 1 + con_mod)
  let hit_points := avg_hit_per_level * max 1 c.level + aget agg "hit_points" 0
  let armor_class := c.base_armor_class + aget agg "armor_class" 0 + dex_mod
  let saves := [
    ("fortitude", con_mod + (if c.save_proficiencies.contains "fortitude" then proficiency_bonus else 0)
      + aget agg "fortitude" 0),
    ("reflex", dex_mod + (if c.save_proficiencies.contains "reflex" then proficiency_bonus else 0)
      + aget agg "reflex" 0),
    ("will", wis_mod + (if c.save_proficiencies.contains "will" then proficiency_bonus else 0)
      + aget agg "will" 0)]
  let chp : Int := match c.current_hit_points with
    | none => hit_points
    | some v => min v hit_points
  let c := { c with abilities := abilities, proficiency_bonus := proficiency_bonus,
                    hit_points := hit_points, armor_class := armor_class, saves := saves }
  if chp ≤ 0 then
    { c with current_hit_points := some 0, is_alive := false }
  else
    { c with current_hit_points := some chp }

/-- The shared pattern of `add_status_effect`: combine into the first stored
effect with the same id, else append (`for ... else` in the source). -/
def combineInto : List StatusEffect → StatusEffect → List StatusEffect
  | [], e => [e]
  | s :: rest, e =>
      if s.id == e.id then s.combine e :: rest else s :: combineInto rest e

/-- `Creature.add_status_effect`. -/
def add_status_effect (c : Creature) (e : StatusEffect) : Creature :=
  recompute_statistics { c with status_effects := combineInto c.status_effects e }

/-- `Creature.tick_status_effects`: tick every effect (mutating it), keep the
still-active ones, recompute. -/
def tick_status_effects (c : Creature) (tick_type : DurationType) : Creature :=
  let effects := c.status_effects.filterMap (fun e =>
    let r := e.tick tick_type
    if r.2 then some r.1 else none)
  recompute_statistics { c with status_effects := effects }

/-- `Creature.dispel_status_effects`. -/
def dispel_status_effects (c : Creature) (dispel_type : DispelCondition) : Creature :=
  let effects := c.status_effects.filter (fun e => ¬e.can_be_dispelled dispel_type)
  recompute_statistics { c with status_effects := effects }

/-- `Creature.apply_damage`: no-op on the dead; clamp at zero; zero flips the
alive flag. -/
def apply_damage (c : Creature) (amount : Int) : Creature :=
  if ¬c.is_alive then c
  else
    let chp := max 0 (c.current_hit_points.getD 0 - max 0 amount)
    let c := { c with current_hit_points := some chp }
    if chp = 0 then { c with is_alive := false } else c

/-- `Creature.heal`: no-op on the dead; clamp at maximum hit points. -/
def heal (c : Creature) (amount : Int) : Creature :=
  if ¬c.is_alive then c
  else
    let chp : Int := min c.hit_points (c.current_hit_points.getD 0 + max 0 amount)
    { c with current_hit_points := some chp }

/-- `Creature.available_tiers`: a synthetic "base" tier followed by the given
extra tiers, falling back to the creature's own tiers when the extra list is
`None` or empty (Python `extra_tiers or self.tiers`). -/
def available_tiers (c : Creature) (extra_tiers : Option (List CreatureTierTemplate)) :
    List CreatureTierTemplate :=
  let rest := match extra_tiers with
    | some (t :: ts) => t :: ts
    | _ => c.tiers
  { name := "base", difficulty := "standard" } :: rest

/-- The preference table of `Creature.select_tier_for_level`, including the
`dict.get` default for an unknown difficulty. -/
def preferredOrder (difficulty : String) : List String :=
  if difficulty = "easy" then ["easy", "less_difficult", "standard", "hard"]
  else if difficulty = "standard" then ["standard", "hard", "easy", "deadly"]
  else if difficulty = "hard" then ["hard", "deadly", "standard", "easy"]
  else if difficulty = "deadly" then ["deadly", "hard", "standard", "easy"]
  else [difficulty, "standard", "hard", "easy"]

/-- `best_match` inside `select_tier_for_level`: the first minimal-distance
tier among those with the given difficulty label, if any. -/
def bestMatch (tiers : List CreatureTierTemplate) (dist : CreatureTierTemplate → Int)
    (preferred : String) : Option CreatureTierTemplate :=
  match tiers.filter (fun t => t.difficulty == preferred) with
  | [] => none
  | m :: ms => some (pyMinBy dist m ms)

/-- The `for preferred in preferred_order` loop of `select_tier_for_level`. -/
def firstPreferred (tiers : List CreatureTierTemplate) (dist : CreatureTierTemplate → Int) :
    List String → Option CreatureTierTemplate
  | [] => none
  | p :: ps =>
      match bestMatch tiers dist p with
      | some t => some t
      | none => firstPreferred tiers dist ps

/-- `Creature.select_tier_for_level`. -/
def select_tier_for_level (c : Creature) (target_level : Int) (difficulty : String)
    (extra_tiers : Option (List CreatureTierTemplate)) : CreatureTierTemplate :=
  let tiers := c.available_tiers extra_tiers
  let dist := fun (t : CreatureTierTemplate) => |t.effective_level c.level - target_level|
  match firstPreferred tiers dist (preferredOrder difficulty) with
  | some t => t
  | none =>
      match tiers with
      | [] => { name := "base" } -- unreachable: `available_tiers` always starts with the base tier
      | m :: ms => pyMinBy dist m ms

/-- `Creature.apply_tier`: deep-copy, stamp the tier, recompute, shift action
bonuses when either combat adjustment is nonzero, refill hit points. -/
def apply_tier (c : Creature) (tier : CreatureTierTemplate) : Creature :=
  let tiered := { c with applied_tier := some tier.name,
                         level := max 1 (c.level + tier.level_adjustment),
                         tier_modifiers := tier.as_modifiers }
  let tiered := tiered.recompute_statistics
  let tiered :=
    if tier.attack_adjustment ≠ 0 ∨ tier.damage_adjustment ≠ 0 then
      { tiered with actions := tiered.actions.map (fun a =>
          { a with to_hit_bonus := a.to_hit_bonus + tier.attack_adjustment,
                   damage_bonus := a.damage_bonus + tier.damage_adjustment }) }
    else tiered
  { tiered with current_hit_points := some tiered.hit_points }

end Creature

/-- `rules/skills.py`: the keys of `SKILL_TO_ABILITY` (membership is all the
recompute path uses). -/
def skillIds : List String :=
  ["acrobatics", "animal_handling", "arcana", "athletics", "deception", "history",
   "insight", "intimidation", "investigation", "medicine", "nature", "perception",
   "performance", "persuasion", "religion", "sleight_of_hand", "stealth", "survival"]

/-- `player.py`: dataclass `Skill`. -/
structure Skill where
  name : String
  key_ability : String
  proficiency : String := "untrained"
deriving DecidableEq, Repr

/-- `player.py`: dataclass `Feat` (the fields stat recomputation reads). -/
structure Feat where
  id : String
  name : String
  modifiers : List (String × Int) := []
deriving DecidableEq, Repr

/-- `items/item.py`: equipment as seen by the aggregator (a named bag of
numeric modifiers). -/
structure Equipment where
  name : String := ""
  modifiers : List (String × Int) := []
deriving DecidableEq, Repr

/-- One value of a `feature_progression` dict: the payload keys the recompute
pipeline reads (`modifiers`, `features`, `choice_slots`, `spell_slots`). -/
structure ProgressionEntry where
  modifiers : List (String × Int) := []
  features : List String := []
  choice_slots : List (String × Int) := []
  spell_slots : List (String × Int) := []
deriving DecidableEq, Repr

/-- `player.py`: dataclass `Race` (the fields stat recomputation reads). -/
structure Race where
  id : String := ""
  name : String := ""
  bonuses : List (String × Int) := []
  traits : List String := []
  proficiency_packs : List (String × List String) := []
  feature_progression : List (Int × ProgressionEntry) := []
  spell_progression : List (Int × List (String × Int)) := []
  choice_slots : List (String × Int) := []
deriving DecidableEq, Repr

/-- `player.py`: dataclass `Class` (the fields stat recomputation reads). -/
structure Class where
  id : String := ""
  name : String := ""
  hit_die : Int := 6
  save_proficiencies : List String := []
  bonuses : List (String × Int) := []
  proficiency_packs : List (String × List String) := []
  feature_progression : List (Int × ProgressionEntry) := []
  spell_progression : List (Int × List (String × Int)) := []
  choice_slots : List (String × Int) := []
deriving DecidableEq, Repr

/-- Python `{**a, **b}` on string-keyed dicts: keys of `a` in order with values
overridden by `b`, then the new keys of `b`. -/
def dictUnion (a b : List (String × List String)) : List (String × List String) :=
  a.map (fun p => match b.find? (fun q => q.1 == p.1) with
    | some q => (p.1, q.2)
    | none => p) ++
  b.filter (fun q => ¬a.any (fun p => p.1 == q.1))

/-- Python `set.add` modelled on an insertion-ordered duplicate-free list. -/
def setAdd (s : List String) (x : String) : List String :=
  if s.contains x then s else s ++ [x]

/-- `items/item.py`: dataclass `Consumable` (the fields the combat engine
reads). -/
structure Consumable where
  id : String := ""
  name : String := ""
  usable_in_combat : Bool := true
  charges : Int := 1
  effect_id : String := ""
deriving DecidableEq, Repr

/-- `player.py`: dataclass `PlayerCharacter`. The inventory is modelled as its
consumable items (the only inventory members the combat engine touches);
`cached_modifiers` models the private `_cached_modifiers` field. -/
structure PlayerCharacter where
  id : String
  name : String
  background : String := ""
  abilities : List (String × AbilityScore) := []
  skills : List (String × Skill) := []
  race : Race := {}
  character_class : Class := {}
  feats : List Feat := []
  inventory : List Consumable := []
  equipment : List (String × Equipment) := []
  status_effects : List StatusEffect := []
  level : Int := 1
  xp : Int := 0
  hit_points : Int := 0
  current_hit_points : Option Int := none
  is_alive : Bool := true
  armor_class : Int := 10
  saves : List (String × Int) := []
  save_proficiencies : List String := []
  initiative : Int := 0
  proficiency_bonus : Int := 2
  scores_include_static_bonuses : Bool := false
  granted_features : List String := []
  spellcasting : List (String × Int) := []
  choice_slots : List (String × Int) := []
  available_proficiency_packs : List (String × List String) := []
  skill_proficiencies : List String := []
  cached_modifiers : List (String × Int) := []
deriving DecidableEq, Repr

namespace PlayerCharacter

/-- `PlayerCharacter._collect_modifiers`: race bonuses, class bonuses, feats,
equipped items, then status effects, merged in that order. -/
def collectModifiers (pc : PlayerCharacter) : List (String × Int) :=
  let m := mergeModifiers [] pc.race.bonuses
  let m := mergeModifiers m pc.character_class.bonuses
  let m := pc.feats.foldl (fun acc f => mergeModifiers acc f.modifiers) m
  let m := pc.equipment.foldl (fun acc p => mergeModifiers acc p.2.modifiers) m
  pc.status_effects.foldl (fun acc e => mergeModifiers acc e.total_modifiers) m

/-- `PlayerCharacter._progression_entries`: payloads whose unlocking level is
at most the character's level, in dict order. -/
def progressionEntries (level : Int) (progression : List (Int × ProgressionEntry)) :
    List ProgressionEntry :=
  (progression.filter (fun p => p.1 ≤ level)).map (fun p => p.2)

/-- `PlayerCharacter._collect_progression_modifiers` together with its
`_append_features` side effect: returns the merged progression modifiers and
the feature names appended to `granted_features`. -/
def collectProgressionModifiers (pc : PlayerCharacter) :
    List (String × Int) × List String :=
  let raceEntries := progressionEntries pc.level pc.race.feature_progression
  let classEntries := progressionEntries pc.level pc.character_class.feature_progression
  let m := raceEntries.foldl (fun acc e => mergeModifiers acc e.modifiers) []
  let m := classEntries.foldl (fun acc e => mergeModifiers acc e.modifiers) m
  (m, (raceEntries ++ classEntries).foldl (fun acc e => acc ++ e.features) [])

/-- `PlayerCharacter._collect_choice_slots`. -/
def collectChoiceSlots (pc : PlayerCharacter) : List (String × Int) :=
  let s := mergeModifiers [] pc.race.choice_slots
  let s := mergeModifiers s pc.character_class.choice_slots
  let s := (progressionEntries pc.level pc.race.feature_progression).foldl
    (fun acc e => mergeModifiers acc e.choice_slots) s
  (progressionEntries pc.level pc.character_class.feature_progression).foldl
    (fun acc e => mergeModifiers acc e.choice_slots) s

/-- `PlayerCharacter._collect_spellcasting`. -/
def collectSpellcasting (pc : PlayerCharacter) : List (String × Int) :=
  let s := (progressionEntries pc.level pc.race.feature_progression).foldl
    (fun acc e => mergeModifiers acc e.spell_slots) []
  let s := (progressionEntries pc.level pc.character_class.feature_progression).foldl
    (fun acc e => mergeModifiers acc e.spell_slots) s
  let s := (pc.race.spell_progression.filter (fun p => p.1 ≤ pc.level)).foldl
    (fun acc p => mergeModifiers acc p.2) s
  (pc.character_class.spell_progression.filter (fun p => p.1 ≤ pc.level)).foldl
    (fun acc p => mergeModifiers acc p.2) s

/-- `PlayerCharacter._collect_skill_proficiencies` (the resulting Python set
as an insertion-ordered list). -/
def collectSkillProficiencies (pc : PlayerCharacter) : List String :=
  let s := pc.skills.foldl (fun acc p =>
    if p.2.proficiency.toLower ≠ "untrained" then setAdd acc p.1.toLower else acc) []
  let packs := pc.race.proficiency_packs ++ pc.character_class.proficiency_packs
  packs.foldl (fun acc pack =>
    pack.2.foldl (fun acc entry =>
      if skillIds.contains entry.toLower then setAdd acc entry.toLower else acc) acc) s

/-- `PlayerCharacter.recompute_statistics`. The Python method updates the
aggregate caches, abilities, proficiency bonus, hit points and armor class,
and then raises `AttributeError`: it calls `self._collect_save_proficiencies()`
(and below that `self.get_save_modifier` / `legacy_save_mapping`), none of
which exist anywhere in the codebase. The result is the partially-updated
state paired with the uncaught exception. -/
def recompute_statistics (pc : PlayerCharacter) :
    PlayerCharacter × Option String :=
  let agg := pc.collectModifiers
  let granted_features := pc.race.traits
  let available_proficiency_packs :=
    dictUnion pc.race.proficiency_packs pc.character_class.proficiency_packs
  let prog := pc.collectProgressionModifiers
  let agg := mergeModifiers agg prog.1
  let granted_features := granted_features ++ prog.2
  let cached_modifiers := agg
  let choice_slots := pc.collectChoiceSlots
  let spellcasting := pc.collectSpellcasting
  let skill_proficiencies := pc.collectSkillProficiencies
  let abilities := pc.abilities.map (fun p =>
    let bonus := aget agg p.1 0
    let base_score := p.2.base_score.getD p.2.score
    let total := base_score + bonus
    (p.1, { p.2 with base_score := some base_score, score := total,
                     modifier := (total - 10).fdiv 2 }))
  let proficiency_bonus := 2 + (pc.level - 1).fdiv 4
  let con_mod := (abilityGet abilities "constitution").modifier
  let dex_mod := (abilityGet abilities "dexterity").modifier
  let base_hp := max 1 (pc.character_class.hit_die + con_mod)
  let hit_points := pc.level * base_hp + aget agg "hit_points" 0
  let armor_class := 10 + dex_mod + aget agg "armor_class" 0
  ({ pc with granted_features := granted_features,
             available_proficiency_packs := available_proficiency_packs,
             cached_modifiers := cached_modifiers,
             choice_slots := choice_slots,
             spellcasting := spellcasting,
             skill_proficiencies := skill_proficiencies,
             abilities := abilities,
             proficiency_bonus := proficiency_bonus,
             hit_points := hit_points,
             armor_class := armor_class },
   some "AttributeError: PlayerCharacter has no attribute _collect_save_proficiencies")

/-- `PlayerCharacter.apply_damage` (same logic as `Creature.apply_damage`). -/
def apply_damage (pc : PlayerCharacter) (amount : Int) : PlayerCharacter :=
  if ¬pc.is_alive then pc
  else
    let chp := max 0 (pc.current_hit_points.getD 0 - max 0 amount)
    let pc := { pc with current_hit_points := some chp }
    if chp = 0 then { pc with is_alive := false } else pc

/-- `PlayerCharacter.heal` (same logic as `Creature.heal`). -/
def heal (pc : PlayerCharacter) (amount : Int) : PlayerCharacter :=
  if ¬pc.is_alive then pc
  else
    let chp : Int := min pc.hit_points (pc.current_hit_points.getD 0 + max 0 amount)
    { pc with current_hit_points := some chp }

end PlayerCharacter

/-- Python `d.get(k, default)` on a rational-valued dict. -/
def qget (d : List (String × ℚ)) (k : String) (default : ℚ) : ℚ :=
  match d.find? (fun p => p.1 == k) with
  | some p => p.2
  | none => default

/-- `npc.py`: dataclass `NPCScalingProfile` (float multipliers as rationals). -/
structure NPCScalingProfile where
  base_level : Int := 1
  min_level : Int := 1
  max_level : Int := 20
  attack_progression : Int := 0
  damage_progression : Int := 0
  difficulty_multipliers : List (String × ℚ) :=
    [("easy", 3/4), ("standard", 1), ("hard", 5/4), ("deadly", 3/2)]
  tiers : List CreatureTierTemplate := []
deriving DecidableEq, Repr

/-- `npc.py`: dataclass `NPC` (combat-relevant fields). -/
structure NPC where
  id : String
  archetype : String := ""
  faction_id : String := ""
  disposition : String := "neutral"
  status_effects : List StatusEffect := []
  quest_hooks : List String := []
  is_companion : Bool := true
  stat_block : Option Creature := none
  scaling : Option NPCScalingProfile := none
  is_alive : Bool := true
  level : Int := 0
  xp : Int := 0
  auto_level : Bool := true
deriving DecidableEq, Repr

namespace NPC

/-- Lines 100–105 of `NPC.scaled_stat_block`: resolve the base level,
multiply the level gap by the difficulty multiplier (default 1.0), convert
with Python `int()`, and clamp to the profile's bounds. -/
def scalingTargetLevel (scaling : NPCScalingProfile) (template_level player_level : Int)
    (difficulty : String) : Int :=
  let base_level := if scaling.base_level > 0 then scaling.base_level else template_level
  let multiplier := qget scaling.difficulty_multipliers difficulty 1
  let delta := player_level - base_level
  let adjusted_delta := pyTrunc ((delta : ℚ) * multiplier)
  max scaling.min_level (min scaling.max_level (base_level + adjusted_delta))

/-- `NPC.scaled_stat_block`, with explicit state passing: the method reads
`self` but only ever mutates the deep copy, so the returned `NPC` component is
the receiver as the method leaves it. -/
def scaled_stat_block (npc : NPC) (player_level : Int) (difficulty : String) :
    NPC × Option Creature :=
  match npc.stat_block with
  | none => (npc, none)
  | some template =>
      let scaled := template
      match npc.scaling with
      | none =>
          let scaled := scaled.recompute_statistics
          let scaled := { scaled with current_hit_points := some scaled.hit_points }
          let scaled := { scaled with is_alive := npc.is_alive && scaled.is_alive }
          (npc, some scaled)
      | some scaling =>
          let target_level := scalingTargetLevel scaling scaled.level player_level difficulty
          let tier_candidates := if scaling.tiers ≠ [] then scaling.tiers else scaled.tiers
          let selected_tier :=
            scaled.select_tier_for_level target_level difficulty (some tier_candidates)
          let scaled := scaled.apply_tier selected_tier
          let level_delta := target_level - scaled.level
          let scaled := { scaled with level := target_level }
          let scaled := scaled.recompute_statistics
          let scaled :=
            if level_delta ≠ 0 then
              { scaled with actions := scaled.actions.map (fun a =>
                  { a with
                    to_hit_bonus := a.to_hit_bonus + level_delta * scaling.attack_progression,
                    damage_bonus := a.damage_bonus + level_delta * scaling.damage_progression }) }
            else scaled
          let scaled := { scaled with
            current_hit_points := some (if npc.is_alive then scaled.hit_points else 0) }
          let scaled := { scaled with is_alive := npc.is_alive && scaled.is_alive }
          (npc, some scaled)

/-- A sequence of `scaled_stat_block` calls threaded through the NPC state,
discarding the returned combat copies. -/
def runScaledCalls (npc : NPC) (calls : List (Int × String)) : NPC :=
  calls.foldl (fun n call => (n.scaled_stat_block call.1 call.2).1) npc

end NPC

/-- The pending draws of a `random.Random`: a finite list of integers, an
exhausted list yielding 1 (every finite Python execution reads finitely many
draws, so it is realised by some list). -/
def Rng := List Int
deriving DecidableEq

/-- One draw from the random source. -/
def draw (rng : Rng) : Int × Rng :=
  match rng with
  | [] => (1, ([] : List Int))
  | r :: rs => (r, rs)

/-- Sum of `n` draws (`sum(rng.randint(1, die) for _ in range(num))`). -/
def drawSum : Nat → Rng → Int × Rng
  | 0, rng => (0, rng)
  | n + 1, rng =>
      let p := draw rng
      let q := drawSum n p.2
      (p.1 + q.1, q.2)

/-- Longest digit prefix of a character list. -/
def spanDigits : List Char → List Char × List Char
  | [] => ([], [])
  | c :: cs =>
      if c.isDigit then
        let r := spanDigits cs
        (c :: r.1, r.2)
      else ([], c :: cs)

/-- Numeric value of a digit string. -/
def digitsVal (ds : List Char) : Nat :=
  ds.foldl (fun a c => 10 * a + (c.toNat - 48)) 0

/-- Python `str.strip()` on a character list: drop whitespace at both ends. -/
def stripChars (l : List Char) : List Char :=
  ((l.dropWhile Char.isWhitespace).reverse.dropWhile Char.isWhitespace).reverse

/-- The regex `(\d+)d(\d+)([+-]\d+)?` full-matched against the stripped dice
expression: number of dice, die size, and signed flat modifier. -/
def parseDice (expression : String) : Option (Nat × Nat × Int) :=
  let p1 := spanDigits (stripChars expression.toList)
  if p1.1.isEmpty then none
  else
    match p1.2 with
    | 'd' :: rest =>
        let p2 := spanDigits rest
        if p2.1.isEmpty then none
        else
          match p2.2 with
          | [] => some (digitsVal p1.1, digitsVal p2.1, 0)
          | '+' :: rest2 =>
              let p3 := spanDigits rest2
              if p3.1.isEmpty ∨ ¬p3.2.isEmpty then none
              else some (digitsVal p1.1, digitsVal p2.1, (digitsVal p3.1 : Int))
          | '-' :: rest2 =>
              let p3 := spanDigits rest2
              if p3.1.isEmpty ∨ ¬p3.2.isEmpty then none
              else some (digitsVal p1.1, digitsVal p2.1, -(digitsVal p3.1 : Int))
          | _ => none
    | _ => none

/-- `engine.py`: `roll_dice`. An unparsed expression yields 0; a parsed die
size below 1 makes `randint(1, die)` raise `ValueError` (`none`) as soon as at
least one die is rolled. -/
def roll_dice (expression : String) (rng : Rng) : Option (Int × Rng) :=
  match parseDice expression with
  | none => some (0, rng)
  | some (num, die, k) =>
      if num = 0 then some (k, rng)
      else if die < 1 then none
      else
        let s := drawSum num rng
        some (s.1 + k, s.2)

/-- The `Creature | PlayerCharacter` union the combat engine works over. -/
inductive Combatant where
  | pc (p : PlayerCharacter)
  | creature (c : Creature)
deriving DecidableEq, Repr

namespace Combatant

/-- `attacker.abilities`. -/
def abilities : Combatant → List (String × AbilityScore)
  | .pc p => p.abilities
  | .creature c => c.abilities

/-- `getattr(attacker, "proficiency_bonus", 0)` (both classes have it). -/
def proficiency_bonus : Combatant → Int
  | .pc p => p.proficiency_bonus
  | .creature c => c.proficiency_bonus

/-- `defender.armor_class`. -/
def armor_class : Combatant → Int
  | .pc p => p.armor_class
  | .creature c => c.armor_class

/-- `combatant.is_alive`. -/
def is_alive : Combatant → Bool
  | .pc p => p.is_alive
  | .creature c => c.is_alive

/-- `combatant.name`. -/
def name : Combatant → String
  | .pc p => p.name
  | .creature c => c.name

/-- `combatant.current_hit_points`. -/
def current_hit_points : Combatant → Option Int
  | .pc p => p.current_hit_points
  | .creature c => c.current_hit_points

/-- `defender.apply_damage` (dispatches to the owning class). -/
def apply_damage : Combatant → Int → Combatant
  | .pc p, amount => .pc (p.apply_damage amount)
  | .creature c, amount => .creature (c.apply_damage amount)

/-- `engine.py`: `_apply_heal` (both branches call `target.heal`). -/
def heal : Combatant → Int → Combatant
  | .pc p, amount => .pc (p.heal amount)
  | .creature c, amount => .creature (c.heal amount)

end Combatant

/-- `engine.py`: dataclass `AttackResult`. -/
structure AttackResult where
  hit : Bool
  crit : Bool
  damage : Int
  target_died : Bool
deriving DecidableEq, Repr

/-- `engine.py`: `resolve_attack`. Returns the updated defender alongside the
result; `none` models an uncaught `ValueError` from `roll_dice`. -/
def resolve_attack (attacker defender : Combatant) (action : CreatureAction) (rng : Rng) :
    Option (Combatant × AttackResult × Rng) :=
  let ability := abilityGet attacker.abilities action.attack_ability
  let attack_mod := ability.modifier + attacker.proficiency_bonus + action.to_hit_bonus
  let p := draw rng
  let roll := p.1
  let rng := p.2
  let crit := roll = 20
  let hit_roll := roll + attack_mod
  if crit ∨ hit_roll ≥ defender.armor_class then
    match roll_dice action.damage_dice rng with
    | none => none
    | some (dice, rng) =>
        let base_damage := dice + action.damage_bonus + ability.modifier
        let base_damage := if crit then base_damage * 2 else base_damage
        let defender := defender.apply_damage base_damage
        some (defender, ⟨true, crit, base_damage, ¬defender.is_alive⟩, rng)
  else
    some (defender, ⟨false, false, 0, false⟩, rng)

/-- `engine.py`: dataclass `CombatantRef`. -/
structure CombatantRef where
  kind : String
  id : String
deriving DecidableEq, Repr

/-- `engine.py`: dataclass `TurnOrderEntry`. -/
structure TurnOrderEntry where
  ref : CombatantRef
  initiative : Int
  is_conscious : Bool := true
deriving DecidableEq, Repr

/-- `engine.py`: dataclass `EncounterState`. The free-form `meta` dict is
modelled by the two keys the engine reads and writes: `meta["allies"]`
(a list of creatures) and `meta["rewards_pending"]`. -/
structure EncounterState where
  id : String
  participants : List CombatantRef := []
  turn_order : List TurnOrderEntry
  active_index : Int := 0
  round : Int := 1
  difficulty : String := "standard"
  meta_allies : List Creature := []
  meta_rewards_pending : Bool := false
deriving DecidableEq, Repr

/-- The body of `_advance_turn`'s `while True` loop, fuelled by the number of
remaining steps: starting in range, the loop revisits the starting index after
exactly `len(turn_order)` iterations and breaks there, so fuel
`len(turn_order)` reproduces it exactly. -/
def advanceTurnGo (start : Int) : Nat → EncounterState → EncounterState
  | 0, e => e
  | fuel + 1, e =>
      let n : Int := e.turn_order.length
      let newIdx := (e.active_index + 1) % n
      let e1 := { e with active_index := newIdx,
                         round := if newIdx = 0 then e.round + 1 else e.round }
      match e1.turn_order.get? newIdx.toNat with
      | none => e1 -- unreachable while the turn order is non-empty
      | some entry =>
          if entry.is_conscious then e1
          else if newIdx = start then e1
          else advanceTurnGo start fuel e1

/-- `engine.py`: `_advance_turn`. -/
def advance_turn (e : EncounterState) : EncounterState :=
  if e.turn_order.isEmpty then e
  else advanceTurnGo e.active_index e.turn_order.length e

/-- The turn-order entry at (integer) index `i` is conscious. -/
def consciousAt (T : List TurnOrderEntry) (i : Int) : Prop :=
  ∃ entry, T.get? i.toNat = some entry ∧ entry.is_conscious = true

/-- The `Literal["victory", "defeat"]` outcome of `_check_end_conditions`. -/
inductive EndState where
  | victory
  | defeat
deriving DecidableEq, Repr

/-- `engine.py`: `_check_end_conditions`: defeat if the PC and every ally are
down; else victory (marking rewards pending) if no creature is left alive. -/
def check_end_conditions (pc : PlayerCharacter) (creatures : List Creature)
    (e : EncounterState) (allies : List Creature) : EncounterState × Option EndState :=
  if ¬pc.is_alive ∧ ¬allies.any (fun a => a.is_alive) then (e, some .defeat)
  else if (creatures.filter (fun c => c.is_alive)).isEmpty then
    ({ e with meta_rewards_pending := true }, some .victory)
  else (e, none)

/-- `engine.py`: `_lookup_combatant`; `none` models the `KeyError`. -/
def lookup_combatant (ref : CombatantRef) (pc : PlayerCharacter)
    (creatures : List Creature) (npcs : Option (List Creature)) : Option Combatant :=
  if ref.kind = "pc" ∧ pc.id = ref.id then some (.pc pc)
  else
    match (if ref.kind = "creature" then creatures.find? (fun c => c.id == ref.id) else none) with
    | some c => some (.creature c)
    | none =>
        match npcs with
        | some npcList =>
            if ref.kind = "npc" then (npcList.find? (fun c => c.id == ref.id)).map .creature
            else none
        | none => none

/-- Replace the first creature with the given id (the object
`_lookup_combatant` aliases). -/
def replaceFirstById (l : List Creature) (i : String) (c : Creature) : List Creature :=
  match l with
  | [] => []
  | x :: xs => if x.id == i then c :: xs else x :: replaceFirstById xs i c

/-- Propagate an in-place mutation of a looked-up combatant back into the
collection it was aliased from. -/
def storeBack (target : CombatantRef) (updated : Combatant) (pc : PlayerCharacter)
    (creatures allies : List Creature) :
    PlayerCharacter × List Creature × List Creature :=
  if target.kind = "pc" ∧ pc.id = target.id then
    (match updated with
     | .pc p => p
     | .creature _ => pc, -- unreachable: a pc ref looks up the player
     creatures, allies)
  else if target.kind = "creature" ∧ creatures.any (fun c => c.id == target.id) then
    (pc,
     match updated with
     | .creature c => replaceFirstById creatures target.id c
     | .pc _ => creatures, -- unreachable
     allies)
  else if target.kind = "npc" then
    (pc, creatures,
     match updated with
     | .creature c => replaceFirstById allies target.id c
     | .pc _ => allies) -- unreachable
  else (pc, creatures, allies)

/-- The `is_alive` flag the `registry` dict of `process_turn_commands` holds
for key `kind:id` (the dict is keyed by that string, later same-key inserts
winning). -/
def registryAlive (kind idv : String) (pc : PlayerCharacter)
    (creatures allies : List Creature) : Option Bool :=
  if kind = "npc" then (allies.reverse.find? (fun c => c.id == idv)).map (fun c => c.is_alive)
  else if kind = "creature" then
    (creatures.reverse.find? (fun c => c.id == idv)).map (fun c => c.is_alive)
  else if kind = "pc" ∧ idv = pc.id then some pc.is_alive
  else none

/-- `engine.py`: `_mark_consciousness` over the registry, after the engine has
re-pointed the just-attacked target's registry key at the updated defender
(the `override` argument). Entries without a registry key are skipped. -/
def mark_consciousness (e : EncounterState) (pc : PlayerCharacter)
    (creatures allies : List Creature) (override : Option (CombatantRef × Bool)) :
    EncounterState :=
  { e with turn_order := e.turn_order.map (fun entry =>
      let alive? :=
        match override with
        | some (r, b) =>
            if r.kind = entry.ref.kind ∧ r.id = entry.ref.id then some b
            else registryAlive entry.ref.kind entry.ref.id pc creatures allies
        | none => registryAlive entry.ref.kind entry.ref.id pc creatures allies
      match alive? with
      | some a => { entry with is_conscious := a }
      | none => entry) }

/-- Python `int(str)` on the digit tail of an effect id (`toInt?` agrees with
Python on plain optionally-signed decimal strings; a failed parse is the
`except` branch yielding 0 at the call site). -/
def pyInt? (s : String) : Option Int := s.toInt?

/-- The in-place charge decrement plus conditional removal performed by
`use_consumable_in_combat` on the inventory entry aliased by the used item. -/
def updateInventory (inv : List Consumable) (item item' : Consumable) : List Consumable :=
  match inv with
  | [] => []
  | x :: xs =>
      if x == item then (if item'.charges ≤ 0 then xs else item' :: xs)
      else x :: updateInventory xs item item'

/-- `engine.py`: `use_consumable_in_combat`. Returns the player (inventory
updated), the healed target and the `healed` flag; when the target is the
player the caller grafts the inventory onto the healed player, mirroring the
aliasing in the source. -/
def use_consumable_in_combat (pc : PlayerCharacter) (item : Consumable)
    (target : Combatant) : PlayerCharacter × Combatant × Bool :=
  if ¬item.usable_in_combat ∨ item.charges ≤ 0 then (pc, target, false)
  else
    let effect_id := item.effect_id
    let r :=
      if effect_id.startsWith "heal_" then
        let heal_amount := (pyInt? (effect_id.drop 5)).getD 0
        (target.heal heal_amount, decide (heal_amount > 0))
      else if effect_id = "restore_health" ∨ effect_id = "heal" then
        (target.heal 25, true)
      else (target, false)
    let item' := { item with charges := item.charges - 1 }
    ({ pc with inventory := updateInventory pc.inventory item item' }, r.1, r.2)

/-- `engine.py`: dataclass `CombatLogEntry`. -/
structure CombatLogEntry where
  round : Int
  actor : CombatantRef
  action : String
  target : Option CombatantRef
  message : String
deriving DecidableEq, Repr

/-- One entry of the `commands` list: the well-typed shapes the dispatch in
`process_turn_commands` recognises. `other` covers every command the loop
ignores (unknown type, attack without a `CreatureAction`, item without a
`Consumable`, missing target ref). -/
inductive Command where
  | attack (target : CombatantRef) (action : CreatureAction) (ap_cost : Int)
  | item (target : CombatantRef) (consumable : Consumable) (ap_cost : Int)
  | defend (ap_cost : Int)
  | flee (ap_cost : Int)
  | other
deriving DecidableEq, Repr

/-- The `Literal["ongoing", "victory", "defeat", "fled"]` status. -/
inductive CombatStatus where
  | ongoing
  | victory
  | defeat
  | fled
deriving DecidableEq, Repr

/-- The mutable state threaded through the command loop of
`process_turn_commands`. -/
structure TurnState where
  pc : PlayerCharacter
  creatures : List Creature
  allies : List Creature
  encounter : EncounterState
  remaining_ap : Int := 3
  outcome : CombatStatus := .ongoing
  log : List CombatLogEntry := []
  rng : Rng
deriving DecidableEq

/-- `append_log` inside `process_turn_commands`. -/
def appendLog (st : TurnState) (actor : CombatantRef) (action : String)
    (target : Option CombatantRef) (message : String) : TurnState :=
  { st with log := st.log ++
      [{ round := st.encounter.round, actor := actor, action := action,
         target := target, message := message }] }

/-- Soundness of a terminal outcome with respect to the final combatant
state: "victory" certifies every hostile creature down, "defeat" certifies the
player and every ally down. -/
def outcomeSound (st : TurnState) : Prop :=
  (st.outcome = CombatStatus.victory → ∀ c ∈ st.creatures, c.is_alive = false) ∧
  (st.outcome = CombatStatus.defeat →
    st.pc.is_alive = false ∧ ∀ a ∈ st.allies, a.is_alive = false)

/-- The outcome update induced by a `_check_end_conditions` result. -/
def applyEnd (st : TurnState) : Option EndState → TurnState
  | some .victory => { st with outcome := .victory }
  | some .defeat => { st with outcome := .defeat }
  | none => st

/-- The `_check_end_conditions` call made after every attack, together with
the status update it induces on the turn state. -/
def afterCheck (st : TurnState) : TurnState :=
  let ce := check_end_conditions st.pc st.creatures st.encounter st.allies
  applyEnd { st with encounter := ce.1 } ce.2

/-- The `for command in commands` loop of `process_turn_commands`; `none`
models an uncaught `KeyError`/`ValueError`. -/
def processCommands (actor : CombatantRef) :
    List Command → TurnState → Option TurnState
  | [], st => some st
  | cmd :: rest, st =>
      if st.remaining_ap ≤ 0 ∨ st.outcome ≠ CombatStatus.ongoing then some st
      else
        match cmd with
        | .attack target action cost =>
            match lookup_combatant actor st.pc st.creatures (some st.allies) with
            | none => none
            | some attacker =>
                match lookup_combatant target st.pc st.creatures (some st.allies) with
                | none => none
                | some defender =>
                    match resolve_attack attacker defender action st.rng with
                    | none => none
                    | some (defender', result, rng) =>
                        let st := { st with
                          remaining_ap := max 0 (st.remaining_ap - cost), rng := rng }
                        let st := appendLog st actor "attack" (some target)
                          (attacker.name ++ " attacks " ++ defender.name ++ ": " ++
                           (if result.hit then "hit" else "miss") ++ " for " ++
                           toString result.damage ++ " damage")
                        let s := storeBack target defender' st.pc st.creatures st.allies
                        let st := { st with pc := s.1, creatures := s.2.1, allies := s.2.2 }
                        let e' := mark_consciousness st.encounter st.pc st.creatures
                          st.allies (some (target, defender'.is_alive))
                        let st := { st with encounter := e' }
                        processCommands actor rest (afterCheck st)
        | .item target consumable cost =>
            match lookup_combatant actor st.pc st.creatures (some st.allies) with
            | none => none
            | some user =>
                match lookup_combatant target st.pc st.creatures (some st.allies) with
                | none => none
                | some tgt =>
                    let r := use_consumable_in_combat st.pc consumable tgt
                    let s := storeBack target r.2.1 st.pc st.creatures st.allies
                    let st := { st with pc := { s.1 with inventory := r.1.inventory },
                                        creatures := s.2.1, allies := s.2.2 }
                    let st := appendLog st actor "item" (some target)
                      (user.name ++ " uses " ++ consumable.name ++ " on " ++ tgt.name ++
                       " (" ++ (if r.2.2 then "healed" else "no effect") ++ ")")
                    let st := { st with remaining_ap := max 0 (st.remaining_ap - cost) }
                    processCommands actor rest st
        | .defend cost =>
            let st := appendLog st actor "defend" none "Actor takes a defensive stance"
            let st := { st with remaining_ap := max 0 (st.remaining_ap - cost) }
            processCommands actor rest st
        | .flee _ =>
            let st := appendLog st actor "flee" none
              (actor.kind ++ ":" ++ actor.id ++ " flees the encounter")
            some { st with remaining_ap := 0, outcome := .fled }
        | .other => processCommands actor rest st

/-- Python list indexing `l[i]`, including negative indices. -/
def pyListGet {α : Type} (l : List α) (i : Int) : Option α :=
  if 0 ≤ i then l.get? i.toNat
  else
    let j := (l.length : Int) + i
    if j < 0 then none else l.get? j.toNat

/-- `engine.py`: dataclass `EncounterResult`, extended with the final combatant
states the Python code mutates in place and the number of times the rewards
hook ran. -/
structure EncounterResult where
  state : EncounterState
  pc : PlayerCharacter
  creatures : List Creature
  allies : List Creature
  remaining_ap : Int
  log : List CombatLogEntry
  status : CombatStatus
  rewards_invocations : Nat
  rng : Rng
deriving DecidableEq

/-- `engine.py`: `process_turn_commands`. The rewards hook is modelled by its
presence flag and invocation count (its payload is opaque to the engine);
`none` models an uncaught exception (bad active index, unknown combatant,
invalid die). -/
def process_turn_commands (encounter : EncounterState) (pc : PlayerCharacter)
    (creatures : List Creature) (commands : List Command) (rng : Rng)
    (rewards_hook_present : Bool) (allies : Option (List Creature)) :
    Option EncounterResult :=
  let allies := match allies with
    | none => encounter.meta_allies
    | some a => a
  match pyListGet encounter.turn_order encounter.active_index with
  | none => none
  | some active_entry =>
      let actor := active_entry.ref
      match processCommands actor commands
          { pc := pc, creatures := creatures, allies := allies, encounter := encounter,
            remaining_ap := 3, outcome := .ongoing, log := [], rng := rng } with
      | none => none
      | some st =>
          let invocations := if st.outcome = CombatStatus.victory ∧ rewards_hook_present
            then 1 else 0
          some { state := advance_turn st.encounter, pc := st.pc,
                 creatures := st.creatures, allies := st.allies,
                 remaining_ap := st.remaining_ap, log := st.log, status := st.outcome,
                 rewards_invocations := invocations, rng := st.rng }

/-! ## Fixtures and derived definitions -/

/-- A fixture mirroring the character the repository's own
`test_player_progression.py` constructs. -/
def progressionTestPC : PlayerCharacter :=
  { id := "pc-test", name := "Test Hero",
    abilities := [
      ("strength", { name := "strength", score := 10 }),
      ("dexterity", { name := "dexterity", score := 12 }),
      ("constitution", { name := "constitution", score := 12 }),
      ("intelligence", { name := "intelligence", score := 10 }),
      ("wisdom", { name := "wisdom", score := 10 }),
      ("charisma", { name := "charisma", score := 10 })],
    skills := [
      ("perception", { name := "perception", key_ability := "wisdom" }),
      ("stealth", { name := "stealth", key_ability := "dexterity" })],
    race := { id := "race-progression", name := "Progressive Folk",
              traits := ["keen-sight"], bonuses := [("armor_class", 1)],
              choice_slots := [("languages", 1)],
              feature_progression := [(1,
                { features := ["shadow-step"],
                  modifiers := [("reflex", 1), ("armor_class", 1)],
                  spell_slots := [("1", 1)] })] },
    character_class := {
              id := "class-progression", name := "Honed Adept", hit_die := 8,
              save_proficiencies := ["reflex", "fortitude"],
              feature_progression := [
                (2, { features := ["battle-focus"], modifiers := [("hit_points", 3)],
                      choice_slots := [("fighting_styles", 1)] }),
                (3, { features := ["channel-divinity"], spell_slots := [("1", 1), ("2", 1)] })],
              spell_progression := [(1, [("1", 2)])],
              choice_slots := [("skill_training", 1)] },
    level := 3 }

/-- A creature fixture exercising the spec's sample scores 8, 10 and 18. -/
def sampleScoresCreature : Creature :=
  { id := "c.sample", name := "Sample", level := 1, hit_die := 6,
    armor_class := 10, base_armor_class := 10,
    abilities := [
      ("strength", { name := "strength", score := 8 }),
      ("wisdom", { name := "wisdom", score := 10 }),
      ("charisma", { name := "charisma", score := 18 })] }

/-- The status-effect invariant of the spec. -/
def stacksInvariant (e : StatusEffect) : Prop :=
  e.current_stacks ≤ e.max_stacks

/-- An effect fixture for the C3 witness: a STACK-rule strength buff capped at
two stacks. -/
def rageEffect : StatusEffect :=
  { id := "fx.rage", name := "Rage", duration := 3, modifiers := [("strength", 2)],
    max_stacks := 2 }

/-- Attack fixtures for the C5 witness, realising the spec scenario: a +10
to-hit action against armor class 8 hits even on a natural 1. -/
def strikeAction : CreatureAction :=
  { name := "strike", damage_dice := "1d4", to_hit_bonus := 10 }

/-- The defender of the C5 witness scenario. -/
def witnessDefender : Creature :=
  { id := "c.dummy", name := "Dummy", level := 1, hit_die := 6, armor_class := 8,
    base_armor_class := 8, hit_points := 5, current_hit_points := some 5 }

/-- The attacker of the C5 witness scenario. -/
def witnessAttacker : Creature :=
  { id := "c.striker", name := "Striker", level := 1, hit_die := 6, armor_class := 10,
    base_armor_class := 10, hit_points := 5, current_hit_points := some 5 }

/-- An NPC fixture wrapping a template and a default scaling profile. -/
def witnessNPC : NPC :=
  { id := "npc.w", stat_block := some witnessDefender, scaling := some {} }

/-- Modelled from the claim's words (C6): the clamp applied directly to the
real-valued `base + (player − base) × multiplier`, with no `int()`
truncation. -/
def claimTargetLevel (scaling : NPCScalingProfile) (template_level player_level : Int)
    (difficulty : String) : ℚ :=
  let base_level : Int := if scaling.base_level > 0 then scaling.base_level else template_level
  let multiplier := qget scaling.difficulty_multipliers difficulty 1
  max (scaling.min_level : ℚ)
    (min (scaling.max_level : ℚ) (base_level + (player_level - base_level) * multiplier))

/-- A creature fixture with authored hard and easy tiers. -/
def tieredCreature : Creature :=
  { id := "c.tier", name := "Tiered", level := 3, hit_die := 8, armor_class := 12,
    base_armor_class := 12, tiers := [
      { name := "more_difficult", difficulty := "hard", level_adjustment := 1 },
      { name := "less_difficult", difficulty := "easy", level_adjustment := -1 }] }

/-- The number of forward steps (1-based, modulo `n`) from index `start` to
index `i`. -/
def stepsTo (start i n : Int) : Int :=
  (i - start - 1) % n + 1

/-- A one-entry encounter whose only combatant is unconscious. -/
def unconsciousEncounter : EncounterState :=
  { id := "e.down", turn_order :=
      [{ ref := { kind := "pc", id := "p1" }, initiative := 10, is_conscious := false }] }

/-- A three-entry encounter: the next conscious entry sits one step forward. -/
def walkEncounter : EncounterState :=
  { id := "e.walk", active_index := 1, turn_order :=
      [{ ref := { kind := "pc", id := "p1" }, initiative := 12, is_conscious := false },
       { ref := { kind := "creature", id := "c1" }, initiative := 8, is_conscious := false },
       { ref := { kind := "creature", id := "c2" }, initiative := 5, is_conscious := true }] }

/-- The player character of the end-condition scenarios. -/
def heroPC : PlayerCharacter :=
  { id := "pc.hero", name := "Hero",
    abilities := [("strength", { name := "strength", score := 14, modifier := 2 })],
    level := 1, hit_points := 10, current_hit_points := some 10, armor_class := 12 }

/-- The same player character already down (0 HP, not alive). -/
def deadHeroPC : PlayerCharacter :=
  { heroPC with is_alive := false, current_hit_points := some 0 }

/-- A single hostile creature at 1 HP. -/
def loneFoe : Creature :=
  { id := "c.foe", name := "Foe", level := 1, hit_die := 6, armor_class := 5,
    base_armor_class := 5, hit_points := 1, current_hit_points := some 1 }

/-- An encounter whose turn order holds the hero and the lone foe. -/
def cxEncounter : EncounterState :=
  { id := "e.final", turn_order :=
      [{ ref := { kind := "pc", id := "pc.hero" }, initiative := 15 },
       { ref := { kind := "creature", id := "c.foe" }, initiative := 5 }] }

/-- An attack command of the hero against the foe. -/
def cxAttack : Command :=
  .attack { kind := "creature", id := "c.foe" }
    { name := "slash", damage_dice := "1d4", to_hit_bonus := 5 } 1

/-- The run of the C9 scenario in which the live hero fells the last foe. -/
def cxVictoryOutcome : Option EncounterResult :=
  process_turn_commands cxEncounter heroPC [loneFoe] [cxAttack] [10, 3] true none

/-- Its result: a victory. -/
def cxVictoryRes : EncounterResult := cxVictoryOutcome.get (by decide)

/-! ## Supporting lemmas -/

theorem Creature.recompute_abilities (c : Creature) :
    (c.recompute_statistics).abilities = c.abilities.map (fun p =>
      (p.1, { p.2 with modifier := (p.2.score + aget c.collectModifiers p.1 0 - 10).fdiv 2 })) := by
  simp only [Creature.recompute_statistics]
  split <;> rfl

theorem Creature.recompute_level (c : Creature) :
    (c.recompute_statistics).level = c.level := by
  simp only [Creature.recompute_statistics]
  split <;> rfl

theorem Creature.recompute_status_effects (c : Creature) :
    (c.recompute_statistics).status_effects = c.status_effects := by
  simp only [Creature.recompute_statistics]
  split <;> rfl

/-! ## Claims -/

/-- C1. The claim says stat recomputation never fails for any well-formed
player character or creature. `Creature.recompute_statistics` is indeed total,
but `PlayerCharacter.recompute_statistics` raises `AttributeError` on every
input: it calls `self._collect_save_proficiencies()` (and, below, the equally
undefined `get_save_modifier` and `legacy_save_mapping`), which exist nowhere
in the codebase, so every call — including the one the repository's own test
suite makes — dies after the armor-class step. -/
theorem player_recompute_always_raises (pc : PlayerCharacter) :
    (pc.recompute_statistics).2 =
      some "AttributeError: PlayerCharacter has no attribute _collect_save_proficiencies" := by
  rfl

/-- C2. After recomputation every stored ability modifier equals
`floor((effective score − 10) / 2)`: for creatures the effective score is the
stored score plus the aggregated bonus for that ability; for player characters
the effective score (base + aggregated bonus) is written back into `score`
and the modifier derives from it. This covers scores below 10. -/
theorem ability_modifier_floor_formula (c : Creature) (pc : PlayerCharacter) :
    (∀ p ∈ (c.recompute_statistics).abilities,
      p.2.modifier = (p.2.score + aget c.collectModifiers p.1 0 - 10).fdiv 2) ∧
    (∀ p ∈ (pc.recompute_statistics).1.abilities,
      ∃ b, p.2.base_score = some b ∧
        p.2.score = b + aget (pc.recompute_statistics).1.cached_modifiers p.1 0 ∧
        p.2.modifier = (p.2.score - 10).fdiv 2) := by
  constructor
  · intro p hp
    rw [Creature.recompute_abilities] at hp
    obtain ⟨q, _, rfl⟩ := List.mem_map.mp hp
    rfl
  · intro p hp
    have habs : (pc.recompute_statistics).1.abilities = pc.abilities.map (fun q =>
        let agg := mergeModifiers pc.collectModifiers pc.collectProgressionModifiers.1
        let bonus := aget agg q.1 0
        let base_score := q.2.base_score.getD q.2.score
        let total := base_score + bonus
        (q.1, { q.2 with base_score := some base_score, score := total,
                         modifier := (total - 10).fdiv 2 })) := rfl
    have hcached : (pc.recompute_statistics).1.cached_modifiers =
        mergeModifiers pc.collectModifiers pc.collectProgressionModifiers.1 := rfl
    rw [habs] at hp
    obtain ⟨q, _, rfl⟩ := List.mem_map.mp hp
    exact ⟨q.2.base_score.getD q.2.score, rfl, by rw [hcached], rfl⟩

/-- Witness for C2 at the spec's example scores: 8 → −1, 10 → 0, 18 → +4. -/
theorem ability_modifier_floor_formula_witness :
    (("strength", ({ name := "strength", score := 8, modifier := -1 } : AbilityScore)) :
        String × AbilityScore).2.modifier =
      ((8 : Int) + aget sampleScoresCreature.collectModifiers "strength" 0 - 10).fdiv 2 ∧
    (("charisma", ({ name := "charisma", score := 18, modifier := 4 } : AbilityScore)) :
        String × AbilityScore).2.modifier =
      ((18 : Int) + aget sampleScoresCreature.collectModifiers "charisma" 0 - 10).fdiv 2 ∧
    (("wisdom", ({ name := "wisdom", score := 10, modifier := 0 } : AbilityScore)) :
        String × AbilityScore).2.modifier =
      ((10 : Int) + aget sampleScoresCreature.collectModifiers "wisdom" 0 - 10).fdiv 2 := by
  refine ⟨?_, ?_, ?_⟩ <;>
    exact (ability_modifier_floor_formula sampleScoresCreature progressionTestPC).1 _ (by decide)

theorem combine_stacksInvariant (s inc : StatusEffect) (_hs : stacksInvariant s)
    (hinc : stacksInvariant inc) : stacksInvariant (s.combine inc) := by
  unfold stacksInvariant at *
  unfold StatusEffect.combine
  cases inc.stacking_rule <;> simp <;> omega

theorem combineInto_stacksInvariant (l : List StatusEffect) (e : StatusEffect)
    (hl : ∀ u ∈ l, stacksInvariant u) (he : stacksInvariant e) :
    ∀ u ∈ Creature.combineInto l e, stacksInvariant u := by
  induction l with
  | nil =>
      intro u hu
      simp only [Creature.combineInto, List.mem_singleton] at hu
      exact hu ▸ he
  | cons s rest ih =>
      intro u hu
      simp only [Creature.combineInto] at hu
      by_cases hid : (s.id == e.id) = true
      · rw [if_pos hid] at hu
        rcases List.mem_cons.mp hu with h | h
        · exact h ▸ combine_stacksInvariant s e (hl s (by simp)) he
        · exact hl u (List.mem_cons_of_mem s h)
      · rw [if_neg hid] at hu
        rcases List.mem_cons.mp hu with h | h
        · exact h ▸ hl s (by simp)
        · exact ih (fun v hv => hl v (List.mem_cons_of_mem s hv)) u h

theorem tick_preserves_stacks (e : StatusEffect) (t : DurationType) :
    (e.tick t).1.current_stacks = e.current_stacks ∧
    (e.tick t).1.max_stacks = e.max_stacks := by
  unfold StatusEffect.tick
  split <;> exact ⟨rfl, rfl⟩

theorem combineInto_no_match (l : List StatusEffect) (e : StatusEffect)
    (h : ∀ u ∈ l, u.id ≠ e.id) : Creature.combineInto l e = l ++ [e] := by
  induction l with
  | nil => rfl
  | cons s rest ih =>
      have : (s.id == e.id) = false := by
        simpa using h s (by simp)
      simp only [Creature.combineInto, this, if_neg]
      simp only [Bool.false_eq_true, if_false, List.cons_append, List.cons.injEq, true_and]
      exact ih (fun u hu => h u (List.mem_cons_of_mem s hu))

theorem combineInto_match_last (l : List StatusEffect) (x e : StatusEffect)
    (h : ∀ u ∈ l, u.id ≠ e.id) (hx : x.id = e.id) :
    Creature.combineInto (l ++ [x]) e = l ++ [x.combine e] := by
  induction l with
  | nil => simp [Creature.combineInto, hx]
  | cons s rest ih =>
      have : (s.id == e.id) = false := by
        simpa using h s (by simp)
      simp only [List.cons_append, Creature.combineInto, this, Bool.false_eq_true, if_false,
        List.cons.injEq, true_and]
      exact ih (fun u hu => h u (List.mem_cons_of_mem s hu))

/-- C3. Every status-effect operation preserves `current_stacks ≤ max_stacks`,
and the stacking law holds: two adds of a STACK effect with `max_stacks = 2`
leave exactly one stored copy at 2 stacks with doubled modifiers, and a third
add stays at 2 stacks. -/
theorem status_effect_stacking (s inc e : StatusEffect) (c : Creature)
    (t : DurationType) (d : DispelCondition) :
    (stacksInvariant s → stacksInvariant inc → stacksInvariant (s.combine inc)) ∧
    ((∀ u ∈ c.status_effects, stacksInvariant u) →
      (∀ u ∈ (c.tick_status_effects t).status_effects, stacksInvariant u) ∧
      (∀ u ∈ (c.dispel_status_effects d).status_effects, stacksInvariant u) ∧
      (stacksInvariant e →
        ∀ u ∈ (c.add_status_effect e).status_effects, stacksInvariant u)) ∧
    (e.stacking_rule = .stack → e.max_stacks = 2 → e.current_stacks = 1 →
      (∀ u ∈ c.status_effects, u.id ≠ e.id) →
      ((c.add_status_effect e).add_status_effect e).status_effects.countP
          (fun u => u.id == e.id) = 1 ∧
      (∃ u ∈ ((c.add_status_effect e).add_status_effect e).status_effects,
        u.id = e.id ∧ u.current_stacks = 2 ∧ u.max_stacks = 2 ∧
        u.total_modifiers = e.modifiers.map (fun p => (p.1, p.2 * 2))) ∧
      (∀ u ∈ (((c.add_status_effect e).add_status_effect e).add_status_effect e).status_effects,
        u.id = e.id → u.current_stacks = 2)) := by
  refine ⟨combine_stacksInvariant s inc, fun hall => ⟨?_, ?_, ?_⟩, ?_⟩
  · intro u hu
    rw [Creature.tick_status_effects, Creature.recompute_status_effects] at hu
    obtain ⟨a, ha, hfa⟩ := List.mem_filterMap.mp hu
    by_cases hr : ((a.tick t).2 : Bool)
    · rw [if_pos hr] at hfa
      cases hfa
      have := tick_preserves_stacks a t
      unfold stacksInvariant
      rw [this.1, this.2]
      exact hall a ha
    · rw [if_neg hr] at hfa
      cases hfa
  · intro u hu
    rw [Creature.dispel_status_effects, Creature.recompute_status_effects] at hu
    exact hall u (List.mem_of_mem_filter hu)
  · intro he u hu
    rw [Creature.add_status_effect, Creature.recompute_status_effects] at hu
    exact combineInto_stacksInvariant c.status_effects e hall he u hu
  · intro hrule hmax hcur hno
    have hids : ∀ u ∈ c.status_effects, u.id ≠ e.id := hno
    have h1 : (c.add_status_effect e).status_effects = c.status_effects ++ [e] := by
      rw [Creature.add_status_effect, Creature.recompute_status_effects,
        combineInto_no_match c.status_effects e hids]
    have hcomb1 : (e.combine e).current_stacks = 2 ∧ (e.combine e).max_stacks = 2 ∧
        (e.combine e).id = e.id ∧ (e.combine e).modifiers = e.modifiers ∧
        (e.combine e).stacking_rule = StackingRule.stack := by
      unfold StatusEffect.combine
      rw [hrule]
      simp [hmax, hcur]
    have h2 : ((c.add_status_effect e).add_status_effect e).status_effects =
        c.status_effects ++ [e.combine e] := by
      rw [Creature.add_status_effect, Creature.recompute_status_effects, h1,
        combineInto_match_last c.status_effects e e hids rfl]
    have hcomb2 : ((e.combine e).combine e).current_stacks = 2 ∧
        ((e.combine e).combine e).id = e.id := by
      unfold StatusEffect.combine
      rw [hrule]
      simp [hcomb1.1, hcomb1.2.1, hmax, hcur]
    have h3 : (((c.add_status_effect e).add_status_effect e).add_status_effect e).status_effects =
        c.status_effects ++ [(e.combine e).combine e] := by
      rw [Creature.add_status_effect, Creature.recompute_status_effects, h2,
        combineInto_match_last c.status_effects (e.combine e) e hids hcomb1.2.2.1]
    refine ⟨?_, ?_, ?_⟩
    · rw [h2, List.countP_append]
      have hzero : c.status_effects.countP (fun u => u.id == e.id) = 0 := by
        rw [List.countP_eq_zero]
        intro u hu
        simpa using hids u hu
      simp [hzero, hcomb1.2.2.1]
    · refine ⟨e.combine e, ?_, hcomb1.2.2.1, hcomb1.1, hcomb1.2.1, ?_⟩
      · rw [h2]
        exact List.mem_append_right _ (by simp)
      · unfold StatusEffect.total_modifiers
        rw [hcomb1.2.2.2.1, hcomb1.1]
    · intro u hu huid
      rw [h3] at hu
      rcases List.mem_append.mp hu with h | h
      · exact absurd huid (hids u h)
      · rw [List.mem_singleton.mp h]
        exact hcomb2.1

/-- Witness for C3 at a concrete creature and effect. -/
theorem status_effect_stacking_witness :
    (stacksInvariant (rageEffect.combine rageEffect)) ∧
    ((sampleScoresCreature.add_status_effect rageEffect).add_status_effect
        rageEffect).status_effects.countP (fun u => u.id == rageEffect.id) = 1 := by
  constructor
  · exact (status_effect_stacking rageEffect rageEffect rageEffect sampleScoresCreature
      DurationType.turns DispelCondition.any).1 (by unfold stacksInvariant; decide)
      (by unfold stacksInvariant; decide)
  · exact ((status_effect_stacking rageEffect rageEffect rageEffect sampleScoresCreature
      DurationType.turns DispelCondition.any).2.2 rfl rfl rfl (by decide)).1

theorem Creature.apply_damage_dead (c : Creature) (amt : Int) (hdead : c.is_alive = false) :
    c.apply_damage amt = c := by
  unfold Creature.apply_damage
  simp [hdead]

theorem Creature.heal_dead (c : Creature) (amt : Int) (hdead : c.is_alive = false) :
    c.heal amt = c := by
  unfold Creature.heal
  simp [hdead]

theorem Creature.apply_damage_spec (c : Creature) (amt v : Int) (hal : c.is_alive = true)
    (hv : c.current_hit_points = some v) :
    c.apply_damage amt =
      if max 0 (v - max 0 amt) = 0 then
        { c with current_hit_points := some (max 0 (v - max 0 amt)), is_alive := false }
      else { c with current_hit_points := some (max 0 (v - max 0 amt)) } := by
  unfold Creature.apply_damage
  rw [hv]
  simp only [hal, not_true_eq_false, if_false, Option.getD_some]

theorem Creature.heal_spec (c : Creature) (amt v : Int) (hal : c.is_alive = true)
    (hv : c.current_hit_points = some v) :
    c.heal amt = { c with current_hit_points := some (min c.hit_points (v + max 0 amt)) } := by
  unfold Creature.heal
  rw [hv]
  simp only [hal, not_true_eq_false, if_false, Option.getD_some]

theorem PlayerCharacter.player_apply_damage_dead (p : PlayerCharacter) (amt : Int)
    (hdead : p.is_alive = false) : p.apply_damage amt = p := by
  unfold PlayerCharacter.apply_damage
  simp [hdead]

theorem PlayerCharacter.player_heal_dead (p : PlayerCharacter) (amt : Int)
    (hdead : p.is_alive = false) : p.heal amt = p := by
  unfold PlayerCharacter.heal
  simp [hdead]

theorem PlayerCharacter.player_apply_damage_spec (p : PlayerCharacter) (amt v : Int)
    (hal : p.is_alive = true) (hv : p.current_hit_points = some v) :
    p.apply_damage amt =
      if max 0 (v - max 0 amt) = 0 then
        { p with current_hit_points := some (max 0 (v - max 0 amt)), is_alive := false }
      else { p with current_hit_points := some (max 0 (v - max 0 amt)) } := by
  unfold PlayerCharacter.apply_damage
  rw [hv]
  simp only [hal, not_true_eq_false, if_false, Option.getD_some]

theorem PlayerCharacter.player_heal_spec (p : PlayerCharacter) (amt v : Int)
    (hal : p.is_alive = true) (hv : p.current_hit_points = some v) :
    p.heal amt = { p with current_hit_points := some (min p.hit_points (v + max 0 amt)) } := by
  unfold PlayerCharacter.heal
  rw [hv]
  simp only [hal, not_true_eq_false, if_false, Option.getD_some]

/-- C10. Damage application and healing preserve
`0 ≤ current_hit_points ≤ hit_points` and `current_hit_points = 0 → ¬is_alive`;
negative amounts act as zero; once dead, both operations are no-ops. This
holds for creatures and player characters alike. -/
theorem damage_heal_invariants (c : Creature) (p : PlayerCharacter) (amt : Int) :
    ((c.is_alive = false → c.apply_damage amt = c ∧ c.heal amt = c) ∧
     (amt ≤ 0 → c.apply_damage amt = c.apply_damage 0 ∧ c.heal amt = c.heal 0) ∧
     (∀ v, c.current_hit_points = some v → 0 ≤ v → v ≤ c.hit_points →
       (v = 0 → c.is_alive = false) →
       (∃ v', (c.apply_damage amt).current_hit_points = some v' ∧ 0 ≤ v' ∧
         v' ≤ (c.apply_damage amt).hit_points ∧
         (v' = 0 → (c.apply_damage amt).is_alive = false)) ∧
       (∃ w', (c.heal amt).current_hit_points = some w' ∧ 0 ≤ w' ∧
         w' ≤ (c.heal amt).hit_points ∧
         (w' = 0 → (c.heal amt).is_alive = false)))) ∧
    ((p.is_alive = false → p.apply_damage amt = p ∧ p.heal amt = p) ∧
     (amt ≤ 0 → p.apply_damage amt = p.apply_damage 0 ∧ p.heal amt = p.heal 0) ∧
     (∀ v, p.current_hit_points = some v → 0 ≤ v → v ≤ p.hit_points →
       (v = 0 → p.is_alive = false) →
       (∃ v', (p.apply_damage amt).current_hit_points = some v' ∧ 0 ≤ v' ∧
         v' ≤ (p.apply_damage amt).hit_points ∧
         (v' = 0 → (p.apply_damage amt).is_alive = false)) ∧
       (∃ w', (p.heal amt).current_hit_points = some w' ∧ 0 ≤ w' ∧
         w' ≤ (p.heal amt).hit_points ∧
         (w' = 0 → (p.heal amt).is_alive = false)))) := by
  constructor
  · refine ⟨fun hdead => ⟨c.apply_damage_dead amt hdead, c.heal_dead amt hdead⟩,
      fun hneg => ?_, fun v hv h0 hub hz => ?_⟩
    · have hmax : max 0 amt = max 0 0 := by omega
      unfold Creature.apply_damage Creature.heal
      rw [hmax]
      exact ⟨rfl, rfl⟩
    · cases hal : c.is_alive with
      | false =>
          rw [c.apply_damage_dead amt hal, c.heal_dead amt hal]
          exact ⟨⟨v, hv, h0, hub, hz⟩, ⟨v, hv, h0, hub, hz⟩⟩
      | true =>
          constructor
          · rw [c.apply_damage_spec amt v hal hv]
            split
            · exact ⟨max 0 (v - max 0 amt), rfl, by omega,
                show _ ≤ c.hit_points by omega, fun _ => rfl⟩
            · rename_i hnz
              exact ⟨max 0 (v - max 0 amt), rfl, by omega,
                show _ ≤ c.hit_points by omega, fun h => absurd h hnz⟩
          · rw [c.heal_spec amt v hal hv]
            refine ⟨min c.hit_points (v + max 0 amt), rfl, by omega,
              show _ ≤ c.hit_points by omega, fun hzero => ?_⟩
            have hv0 : v = 0 := by omega
            exact absurd hal (by rw [hz hv0]; exact Bool.false_ne_true)
  · refine ⟨fun hdead => ⟨p.player_apply_damage_dead amt hdead, p.player_heal_dead amt hdead⟩,
      fun hneg => ?_, fun v hv h0 hub hz => ?_⟩
    · have hmax : max 0 amt = max 0 0 := by omega
      unfold PlayerCharacter.apply_damage PlayerCharacter.heal
      rw [hmax]
      exact ⟨rfl, rfl⟩
    · cases hal : p.is_alive with
      | false =>
          rw [p.player_apply_damage_dead amt hal, p.player_heal_dead amt hal]
          exact ⟨⟨v, hv, h0, hub, hz⟩, ⟨v, hv, h0, hub, hz⟩⟩
      | true =>
          constructor
          · rw [p.player_apply_damage_spec amt v hal hv]
            split
            · exact ⟨max 0 (v - max 0 amt), rfl, by omega,
                show _ ≤ p.hit_points by omega, fun _ => rfl⟩
            · rename_i hnz
              exact ⟨max 0 (v - max 0 amt), rfl, by omega,
                show _ ≤ p.hit_points by omega, fun h => absurd h hnz⟩
          · rw [p.player_heal_spec amt v hal hv]
            refine ⟨min p.hit_points (v + max 0 amt), rfl, by omega,
              show _ ≤ p.hit_points by omega, fun hzero => ?_⟩
            have hv0 : v = 0 := by omega
            exact absurd hal (by rw [hz hv0]; exact Bool.false_ne_true)

/-- Witness for C10 at a concrete creature and player. -/
theorem damage_heal_invariants_witness :
    (∃ v', (({ sampleScoresCreature with hit_points := 5, current_hit_points := some 5 } :
        Creature).apply_damage 7).current_hit_points = some v' ∧ 0 ≤ v' ∧
      v' ≤ (({ sampleScoresCreature with hit_points := 5, current_hit_points := some 5 } :
        Creature).apply_damage 7).hit_points ∧
      (v' = 0 → (({ sampleScoresCreature with hit_points := 5, current_hit_points := some 5 } :
        Creature).apply_damage 7).is_alive = false)) ∧
    (∃ w', (({ progressionTestPC with hit_points := 4, current_hit_points := some 3 } :
        PlayerCharacter).heal (-2)).current_hit_points = some w' ∧ 0 ≤ w' ∧
      w' ≤ (({ progressionTestPC with hit_points := 4, current_hit_points := some 3 } :
        PlayerCharacter).heal (-2)).hit_points ∧
      (w' = 0 → (({ progressionTestPC with hit_points := 4, current_hit_points := some 3 } :
        PlayerCharacter).heal (-2)).is_alive = false)) := by
  constructor
  · exact ((damage_heal_invariants
      { sampleScoresCreature with hit_points := 5, current_hit_points := some 5 }
      progressionTestPC 7).1.2.2 5 rfl (by norm_num) (by norm_num)
      (fun h => absurd h (by norm_num))).1
  · exact ((damage_heal_invariants sampleScoresCreature
      { progressionTestPC with hit_points := 4, current_hit_points := some 3 } (-2)).2.2.2 3 rfl
      (by norm_num) (by norm_num) (fun h => absurd h (by norm_num))).2

/-- C5. `resolve_attack` rolls one d20; a natural 20 is an automatic critical
hit; otherwise it hits iff roll + ability modifier + proficiency bonus +
`to_hit_bonus` reaches the defender's armor class; hit damage is the parsed
dice roll + `damage_bonus` + ability modifier, doubled on a critical, and is
applied through the defender's `apply_damage`, which clamps at zero and flips
`is_alive` at zero. -/
theorem resolve_attack_spec (attacker defender : Combatant) (action : CreatureAction)
    (rng : Rng) (d' : Combatant) (res : AttackResult) (rng' : Rng)
    (h : resolve_attack attacker defender action rng = some (d', res, rng')) :
    (res.crit = true ↔ (draw rng).1 = 20) ∧
    (res.hit = true ↔ ((draw rng).1 = 20 ∨
      (draw rng).1 + (abilityGet attacker.abilities action.attack_ability).modifier +
        attacker.proficiency_bonus + action.to_hit_bonus ≥ defender.armor_class)) ∧
    (res.hit = true → ∃ dice r2,
      roll_dice action.damage_dice (draw rng).2 = some (dice, r2) ∧
      res.damage = (if (draw rng).1 = 20 then
          (dice + action.damage_bonus +
            (abilityGet attacker.abilities action.attack_ability).modifier) * 2
        else dice + action.damage_bonus +
          (abilityGet attacker.abilities action.attack_ability).modifier) ∧
      d' = defender.apply_damage res.damage ∧ rng' = r2 ∧
      res.target_died = !(defender.apply_damage res.damage).is_alive) ∧
    (res.hit = false → d' = defender ∧ res.damage = 0 ∧ res.crit = false) ∧
    (∀ (comb : Combatant) (amt v : Int), comb.is_alive = true →
      comb.current_hit_points = some v →
      (comb.apply_damage amt).current_hit_points = some (max 0 (v - max 0 amt)) ∧
      (max 0 (v - max 0 amt) = 0 → (comb.apply_damage amt).is_alive = false)) := by
  have hclamp : ∀ (comb : Combatant) (amt v : Int), comb.is_alive = true →
      comb.current_hit_points = some v →
      (comb.apply_damage amt).current_hit_points = some (max 0 (v - max 0 amt)) ∧
      (max 0 (v - max 0 amt) = 0 → (comb.apply_damage amt).is_alive = false) := by
    intro comb amt v hal hv
    cases comb with
    | pc q =>
        have hal' : q.is_alive = true := hal
        have hv' : q.current_hit_points = some v := hv
        rw [show (Combatant.pc q).apply_damage amt = .pc (q.apply_damage amt) from rfl,
          q.player_apply_damage_spec amt v hal' hv']
        constructor
        · split <;> rfl
        · intro hzero
          rw [if_pos hzero]
          rfl
    | creature q =>
        have hal' : q.is_alive = true := hal
        have hv' : q.current_hit_points = some v := hv
        rw [show (Combatant.creature q).apply_damage amt = .creature (q.apply_damage amt)
            from rfl, q.apply_damage_spec amt v hal' hv']
        constructor
        · split <;> rfl
        · intro hzero
          rw [if_pos hzero]
          rfl
  unfold resolve_attack at h
  by_cases hcond : (draw rng).1 = 20 ∨
      (draw rng).1 + ((abilityGet attacker.abilities action.attack_ability).modifier +
        attacker.proficiency_bonus + action.to_hit_bonus) ≥ defender.armor_class
  · rw [if_pos hcond] at h
    cases hrd : roll_dice action.damage_dice (draw rng).2 with
    | none => rw [hrd] at h; cases h
    | some pr =>
        obtain ⟨dice, r2⟩ := pr
        rw [hrd] at h
        simp only [Option.some.injEq, Prod.mk.injEq] at h
        obtain ⟨hd, hres, hrng⟩ := h
        subst hd hres hrng
        refine ⟨by simp, ⟨fun _ => by omega, fun _ => rfl⟩, ?_, ?_, hclamp⟩
        · intro _
          refine ⟨dice, r2, rfl, ?_, ?_, ?_, ?_⟩
          · rfl
          · rfl
          · rfl
          · simp
        · intro hfalse
          simp at hfalse
  · rw [if_neg hcond] at h
    simp only [Option.some.injEq, Prod.mk.injEq] at h
    obtain ⟨hd, hres, hrng⟩ := h
    subst hd hres hrng
    push_neg at hcond
    refine ⟨?_, ?_, ?_, fun _ => ⟨rfl, rfl, rfl⟩, hclamp⟩
    · simp only [Bool.false_eq_true, false_iff]
      exact hcond.1
    · simp only [Bool.false_eq_true, false_iff]
      push_neg
      exact ⟨hcond.1, by omega⟩
    · intro hh
      simp at hh

/-- Witness for C5: rolling a natural 1 with `to_hit_bonus = 10` against
armor class 8 still hits. -/
theorem resolve_attack_spec_witness : (⟨true, false, 2, false⟩ : AttackResult).hit = true :=
  ((resolve_attack_spec (.creature witnessAttacker) (.creature witnessDefender) strikeAction
    [1, 2] (.creature { witnessDefender with current_hit_points := some 3 })
    ⟨true, false, 2, false⟩ [] (by rfl)).2.1).mpr (Or.inr (by decide))

/-- C4. `scaled_stat_block` only reads the NPC and mutates a deep copy: any
sequence of calls leaves the NPC — in particular its authored template's
`level` and `hit_points` — unchanged. -/
theorem scaled_stat_block_frame (npc : NPC) (calls : List (Int × String))
    (pl : Int) (d : String) :
    (npc.scaled_stat_block pl d).1 = npc ∧
    NPC.runScaledCalls npc calls = npc ∧
    (∀ t, npc.stat_block = some t →
      ∃ t', (NPC.runScaledCalls npc calls).stat_block = some t' ∧
        t'.level = t.level ∧ t'.hit_points = t.hit_points) := by
  have hsingle : ∀ (n : NPC) (p : Int) (s : String), (n.scaled_stat_block p s).1 = n := by
    intro n p s
    unfold NPC.scaled_stat_block
    cases hsb : n.stat_block with
    | none => rfl
    | some t =>
        cases hsc : n.scaling with
        | none => rfl
        | some sc => rfl
  have hrun : ∀ (l : List (Int × String)) (n : NPC), NPC.runScaledCalls n l = n := by
    intro l
    induction l with
    | nil => intro n; rfl
    | cons hd tl ih =>
        intro n
        have : NPC.runScaledCalls n (hd :: tl) =
            NPC.runScaledCalls ((n.scaled_stat_block hd.1 hd.2).1) tl := rfl
        rw [this, hsingle]
        exact ih n
  refine ⟨hsingle npc pl d, hrun calls npc, fun t ht => ?_⟩
  rw [hrun calls npc]
  exact ⟨t, ht, rfl, rfl⟩

/-- Witness for C4: two scaling calls leave the fixture template intact. -/
theorem scaled_stat_block_frame_witness :
    ∃ t', (NPC.runScaledCalls witnessNPC [(3, "hard"), (5, "deadly")]).stat_block = some t' ∧
      t'.level = witnessDefender.level ∧ t'.hit_points = witnessDefender.hit_points :=
  (scaled_stat_block_frame witnessNPC [(3, "hard"), (5, "deadly")] 1 "standard").2.2
    witnessDefender rfl

/-- Counterexample to C6 as stated: with the default profile and the "deadly"
multiplier 1.5, a level-2 player against base level 1 gives the code target
level 2 (`int(1 × 1.5) = 1`), while the claim's untruncated formula gives
2.5. -/
theorem scaling_target_counterexample :
    NPC.scalingTargetLevel ({} : NPCScalingProfile) 1 2 "deadly" = 2 ∧
    claimTargetLevel ({} : NPCScalingProfile) 1 2 "deadly" = 5 / 2 ∧
    ((NPC.scalingTargetLevel ({} : NPCScalingProfile) 1 2 "deadly" : ℚ) ≠
      claimTargetLevel ({} : NPCScalingProfile) 1 2 "deadly") := by
  have hmul : qget ({} : NPCScalingProfile).difficulty_multipliers "deadly" 1 = 3 / 2 := rfl
  have h1 : NPC.scalingTargetLevel ({} : NPCScalingProfile) 1 2 "deadly" = 2 := by
    unfold NPC.scalingTargetLevel
    simp only [hmul]
    norm_num [pyTrunc]
  have h2 : claimTargetLevel ({} : NPCScalingProfile) 1 2 "deadly" = 5 / 2 := by
    unfold claimTargetLevel
    simp only [hmul]
    norm_num
  refine ⟨h1, h2, ?_⟩
  rw [h1, h2]
  norm_num

/-- C6 (amended). The scaling target is
`clamp(base + int((player − base) × multiplier), min, max)` where `int()`
truncates toward zero, with the base level and default multiplier as the claim
states; the scaled creature's level equals that target. -/
theorem scaled_stat_block_target_level (npc : NPC) (t : Creature) (p : NPCScalingProfile)
    (pl : Int) (d : String) (h1 : npc.stat_block = some t) (h2 : npc.scaling = some p) :
    ∃ c, (npc.scaled_stat_block pl d).2 = some c ∧
      c.level = max p.min_level (min p.max_level
        ((if p.base_level > 0 then p.base_level else t.level) +
          pyTrunc (((pl - (if p.base_level > 0 then p.base_level else t.level) : Int) : ℚ) *
            qget p.difficulty_multipliers d 1))) := by
  unfold NPC.scaled_stat_block
  rw [h1, h2]
  refine ⟨_, rfl, ?_⟩
  simp [apply_ite Creature.level, Creature.recompute_level, NPC.scalingTargetLevel]

theorem pyMinBy_spec {α : Type} (key : α → Int) (t : List α) (h : α) :
    pyMinBy key h t ∈ h :: t ∧ ∀ x ∈ h :: t, key (pyMinBy key h t) ≤ key x := by
  induction t generalizing h with
  | nil => simp [pyMinBy]
  | cons a as ih =>
      have hstep : pyMinBy key h (a :: as) =
          pyMinBy key (if key a < key h then a else h) as := rfl
      have hm := (ih (if key a < key h then a else h)).1
      have hle := (ih (if key a < key h then a else h)).2
      constructor
      · rw [hstep]
        rcases List.mem_cons.mp hm with he | hmem
        · rw [he]
          split
          · exact List.mem_cons_of_mem h (List.mem_cons_self a as)
          · exact List.mem_cons_self h (a :: as)
        · exact List.mem_cons_of_mem h (List.mem_cons_of_mem a hmem)
      · intro x hx
        rw [hstep]
        by_cases hcmp : key a < key h
        · rw [if_pos hcmp] at hle ⊢
          rcases List.mem_cons.mp hx with he | hx2
          · rw [he]
            have h1 := hle a (List.mem_cons_self a as)
            omega
          · rcases List.mem_cons.mp hx2 with he | hmem
            · rw [he]
              exact hle a (List.mem_cons_self a as)
            · exact hle x (List.mem_cons_of_mem _ hmem)
        · rw [if_neg hcmp] at hle ⊢
          rcases List.mem_cons.mp hx with he | hx2
          · rw [he]
            exact hle h (List.mem_cons_self h as)
          · rcases List.mem_cons.mp hx2 with he | hmem
            · rw [he]
              have h1 := hle h (List.mem_cons_self h as)
              omega
            · exact hle x (List.mem_cons_of_mem _ hmem)

theorem bestMatch_some (tiers : List CreatureTierTemplate)
    (dist : CreatureTierTemplate → Int) (lbl : String) (t : CreatureTierTemplate)
    (h : Creature.bestMatch tiers dist lbl = some t) :
    t ∈ tiers ∧ t.difficulty = lbl ∧
      ∀ u ∈ tiers, u.difficulty = lbl → dist t ≤ dist u := by
  unfold Creature.bestMatch at h
  cases hf : tiers.filter (fun u => u.difficulty == lbl) with
  | nil => rw [hf] at h; cases h
  | cons m ms =>
      rw [hf] at h
      have ht : t = pyMinBy dist m ms := by
        simpa using h.symm
      have hmem : t ∈ m :: ms := ht ▸ (pyMinBy_spec dist ms m).1
      have hmemf : t ∈ tiers.filter (fun u => u.difficulty == lbl) := hf ▸ hmem
      have hTf := List.mem_filter.mp hmemf
      refine ⟨hTf.1, by simpa using hTf.2, fun u hu hud => ?_⟩
      have huf : u ∈ tiers.filter (fun v => v.difficulty == lbl) :=
        List.mem_filter.mpr ⟨hu, by simpa using hud⟩
      rw [hf] at huf
      exact ht ▸ (pyMinBy_spec dist ms m).2 u huf

theorem bestMatch_none (tiers : List CreatureTierTemplate)
    (dist : CreatureTierTemplate → Int) (lbl : String)
    (h : Creature.bestMatch tiers dist lbl = none) :
    ∀ u ∈ tiers, u.difficulty ≠ lbl := by
  unfold Creature.bestMatch at h
  cases hf : tiers.filter (fun u => u.difficulty == lbl) with
  | nil =>
      intro u hu
      have := List.filter_eq_nil_iff.mp hf u hu
      simpa using this
  | cons m ms => rw [hf] at h; cases h

theorem firstPreferred_some (tiers : List CreatureTierTemplate)
    (dist : CreatureTierTemplate → Int) :
    ∀ (order : List String) (t : CreatureTierTemplate),
      Creature.firstPreferred tiers dist order = some t →
      ∃ pre lbl post, order = pre ++ lbl :: post ∧
        (∀ l ∈ pre, ∀ u ∈ tiers, u.difficulty ≠ l) ∧
        Creature.bestMatch tiers dist lbl = some t := by
  intro order
  induction order with
  | nil => intro t h; cases h
  | cons p ps ih =>
      intro t h
      unfold Creature.firstPreferred at h
      cases hb : Creature.bestMatch tiers dist p with
      | some u =>
          rw [hb] at h
          refine ⟨[], p, ps, rfl, by simp, ?_⟩
          rw [hb]
          simpa using h
      | none =>
          rw [hb] at h
          obtain ⟨pre, lbl, post, heq, hpre, hbm⟩ := ih t h
          refine ⟨p :: pre, lbl, post, by rw [heq]; rfl, ?_, hbm⟩
          intro l hl
          rcases List.mem_cons.mp hl with he | hmem
          · exact he ▸ bestMatch_none tiers dist p hb
          · exact hpre l hmem

theorem firstPreferred_none (tiers : List CreatureTierTemplate)
    (dist : CreatureTierTemplate → Int) :
    ∀ (order : List String), Creature.firstPreferred tiers dist order = none →
      ∀ l ∈ order, ∀ u ∈ tiers, u.difficulty ≠ l := by
  intro order
  induction order with
  | nil => intro _ l hl; cases hl
  | cons p ps ih =>
      intro h l hl
      unfold Creature.firstPreferred at h
      cases hb : Creature.bestMatch tiers dist p with
      | some u => rw [hb] at h; cases h
      | none =>
          rw [hb] at h
          rcases List.mem_cons.mp hl with he | hmem
          · exact he ▸ bestMatch_none tiers dist p hb
          · exact ih h l hmem

/-- C7. `select_tier_for_level` returns a candidate whose difficulty label is
the first label in the difficulty's preference order (for "hard": hard,
deadly, standard, easy) that has any match, minimizing
`|effective_level(creature level) − target|` among that label's candidates;
with no labelled match it minimizes that distance over all candidates. -/
theorem select_tier_spec (c : Creature) (target : Int) (difficulty : String)
    (extra : Option (List CreatureTierTemplate)) :
    Creature.preferredOrder "hard" = ["hard", "deadly", "standard", "easy"] ∧
    c.select_tier_for_level target difficulty extra ∈ c.available_tiers extra ∧
    ((∃ pre lbl post, Creature.preferredOrder difficulty = pre ++ lbl :: post ∧
        (∀ l ∈ pre, ∀ u ∈ c.available_tiers extra, u.difficulty ≠ l) ∧
        (c.select_tier_for_level target difficulty extra).difficulty = lbl ∧
        (∀ u ∈ c.available_tiers extra, u.difficulty = lbl →
          |(c.select_tier_for_level target difficulty extra).effective_level c.level - target| ≤
            |u.effective_level c.level - target|)) ∨
      ((∀ l ∈ Creature.preferredOrder difficulty,
          ∀ u ∈ c.available_tiers extra, u.difficulty ≠ l) ∧
        (∀ u ∈ c.available_tiers extra,
          |(c.select_tier_for_level target difficulty extra).effective_level c.level - target| ≤
            |u.effective_level c.level - target|))) := by
  obtain ⟨m, ms, ht⟩ : ∃ m ms, c.available_tiers extra = m :: ms := by
    unfold Creature.available_tiers
    exact ⟨_, _, rfl⟩
  have hsel : c.select_tier_for_level target difficulty extra =
      match Creature.firstPreferred (m :: ms)
          (fun t => |t.effective_level c.level - target|) (Creature.preferredOrder difficulty) with
      | some t => t
      | none => pyMinBy (fun t => |t.effective_level c.level - target|) m ms := by
    unfold Creature.select_tier_for_level
    rw [ht]
  cases hfp : Creature.firstPreferred (m :: ms)
      (fun t => |t.effective_level c.level - target|) (Creature.preferredOrder difficulty) with
  | some t =>
      rw [hfp] at hsel
      obtain ⟨pre, lbl, post, heq, hpre, hbm⟩ :=
        firstPreferred_some (m :: ms) _ (Creature.preferredOrder difficulty) t hfp
      obtain ⟨hmem, hlbl, hmin⟩ := bestMatch_some (m :: ms) _ lbl t hbm
      refine ⟨rfl, by rw [hsel, ht]; exact hmem, Or.inl ⟨pre, lbl, post, heq, ?_, ?_, ?_⟩⟩
      · intro l hl u hu
        exact hpre l hl u (ht ▸ hu)
      · rw [hsel]; exact hlbl
      · intro u hu hud
        rw [hsel]
        exact hmin u (ht ▸ hu) hud
  | none =>
      rw [hfp] at hsel
      have hspec := pyMinBy_spec (fun t => |t.effective_level c.level - target|) ms m
      refine ⟨rfl, by rw [hsel, ht]; exact hspec.1, Or.inr ⟨?_, ?_⟩⟩
      · intro l hl u hu
        exact firstPreferred_none (m :: ms) _ (Creature.preferredOrder difficulty) hfp l hl u
          (ht ▸ hu)
      · intro u hu
        rw [hsel]
        exact hspec.2 u (ht ▸ hu)

theorem step_zero_iff (start n j : Int) (hs0 : 0 ≤ start) (hsn : start < n)
    (hj1 : 1 ≤ j) (hjn : j ≤ n) : (start + j) % n = 0 ↔ j = n - start := by
  constructor
  · intro h
    by_cases hlt : start + j < n
    · rw [Int.emod_eq_of_lt (by omega) hlt] at h
      omega
    · have harg : start + j = (start + j - n) + n * 1 := by ring
      rw [harg, Int.add_mul_emod_self_left,
        Int.emod_eq_of_lt (by omega) (by omega)] at h
      omega
  · intro h
    have harg : start + j = 0 + n * 1 := by omega
    rw [harg, Int.add_mul_emod_self_left]
    exact Int.zero_emod n

theorem step_start_iff (start n j : Int) (hs0 : 0 ≤ start) (hsn : start < n)
    (hj1 : 1 ≤ j) (hjn : j ≤ n) : (start + j) % n = start ↔ j = n := by
  constructor
  · intro h
    by_cases hlt : start + j < n
    · rw [Int.emod_eq_of_lt (by omega) hlt] at h
      omega
    · have harg : start + j = (start + j - n) + n * 1 := by ring
      rw [harg, Int.add_mul_emod_self_left,
        Int.emod_eq_of_lt (by omega) (by omega)] at h
      omega
  · intro h
    have harg : start + j = start + n * 1 := by omega
    rw [harg, Int.add_mul_emod_self_left, Int.emod_eq_of_lt hs0 hsn]

theorem get_of_int_range {α : Type} (T : List α) (i : Int) (h0 : 0 ≤ i)
    (hlt : i < T.length) : ∃ a, T.get? i.toNat = some a ∧ a ∈ T := by
  have hn : i.toNat < T.length := by omega
  exact ⟨T.get ⟨i.toNat, hn⟩, List.get?_eq_get hn, List.get_mem T i.toNat hn⟩

theorem advanceTurnGo_succ (start : Int) (f : Nat) (e : EncounterState) :
    advanceTurnGo start (f + 1) e =
      (let n : Int := e.turn_order.length
       let newIdx := (e.active_index + 1) % n
       let e1 : EncounterState := { e with active_index := newIdx,
                                            round := if newIdx = 0 then e.round + 1
                                              else e.round }
       match e.turn_order.get? newIdx.toNat with
       | none => e1
       | some entry =>
           if entry.is_conscious then e1
           else if newIdx = start then e1
           else advanceTurnGo start f e1) := rfl

theorem encounter_update_congr (e : EncounterState) (a1 a2 r1 r2 : Int)
    (ha : a1 = a2) (hr : r1 = r2) :
    ({ e with active_index := a1, round := r1 } : EncounterState) =
      { e with active_index := a2, round := r2 } := by
  rw [ha, hr]

theorem advanceTurnGo_all_unconscious (T : List TurnOrderEntry)
    (hT : ∀ u ∈ T, u.is_conscious = false) (start : Int)
    (hs0 : 0 ≤ start) (hsn : start < T.length) :
    ∀ (fuel m : Nat) (e : EncounterState), e.turn_order = T →
      m + fuel = T.length → 1 ≤ fuel →
      e.active_index = (start + m) % (T.length : Int) →
      advanceTurnGo start fuel e =
        { e with active_index := start,
                 round := e.round +
                   (if (m : Int) < (T.length : Int) - start then 1 else 0) } := by
  intro fuel
  induction fuel with
  | zero =>
      intro m e _ _ h1 _
      exact absurd h1 (by omega)
  | succ f ih =>
      intro m e hto hm _ hact
      have hn : 0 < ((T.length : Nat) : Int) := by
        omega
      have hlen : ((e.turn_order.length : Nat) : Int) = ((T.length : Nat) : Int) := by
        rw [hto]
      rw [advanceTurnGo_succ]
      simp only [hlen, hact, Int.emod_add_emod]
      have hrange : 0 ≤ (start + (m : Int) + 1) % (T.length : Int) ∧
          (start + (m : Int) + 1) % (T.length : Int) < (T.length : Int) :=
        ⟨Int.emod_nonneg _ (by omega), Int.emod_lt_of_pos _ hn⟩
      obtain ⟨entry, hget, hmem⟩ :=
        get_of_int_range T ((start + (m : Int) + 1) % (T.length : Int)) hrange.1
          (by omega)
      have hget2 : e.turn_order.get? (((start + (m : Int) + 1) % (T.length : Int)).toNat) =
          some entry := by
        rw [hto]
        exact hget
      rw [hget2]
      simp only [hT entry hmem, Bool.false_eq_true, if_false]
      have hassoc : start + ((m : Int) + 1) = start + (m : Int) + 1 := by ring
      have hstart : (start + (m : Int) + 1) % (T.length : Int) = start ↔
          ((m : Int) + 1 : Int) = T.length := by
        rw [← hassoc]
        exact step_start_iff start (T.length : Int) ((m : Int) + 1) hs0 hsn
          (by omega) (by omega)
      have hzero : (start + (m : Int) + 1) % (T.length : Int) = 0 ↔
          ((m : Int) + 1 : Int) = (T.length : Int) - start := by
        rw [← hassoc]
        exact step_zero_iff start (T.length : Int) ((m : Int) + 1) hs0 hsn
          (by omega) (by omega)
      by_cases hlast : m + 1 = T.length
      · rw [if_pos (hstart.mpr (by omega))]
        refine encounter_update_congr e _ _ _ _ (hstart.mpr (by omega)) ?_
        by_cases hsz : start = 0
        · rw [if_pos (hzero.mpr (by omega)), if_pos (by omega)]
        · rw [if_neg (fun hh => hsz (by have h2 := hzero.mp hh; push_cast at h2; omega)),
            if_neg (by omega)]
          omega
      · rw [if_neg (fun hh => hlast (by have h2 := hstart.mp hh; push_cast at h2; omega))]
        have hrec := ih (m + 1)
          { e with active_index := (start + (m : Int) + 1) % (T.length : Int),
                   round := if (start + (m : Int) + 1) % (T.length : Int) = 0
                     then e.round + 1 else e.round }
          hto (by omega) (by omega)
          (by show (start + (m : Int) + 1) % (T.length : Int) =
                (start + ((m + 1 : Nat) : Int)) % (T.length : Int)
              push_cast
              ring_nf)
        rw [hrec]
        refine encounter_update_congr e _ _ _ _ rfl ?_
        show (if (start + (m : Int) + 1) % (T.length : Int) = 0
            then e.round + 1 else e.round) +
            (if ((m + 1 : Nat) : Int) < (T.length : Int) - start then 1 else 0) =
          e.round + (if (m : Int) < (T.length : Int) - start then 1 else 0)
        by_cases hz : (start + (m : Int) + 1) % (T.length : Int) = 0
        · have h2 := hzero.mp hz
          rw [if_pos hz, if_neg (by push_cast; omega), if_pos (by omega)]
          omega
        · have h2 : ¬(((m : Int) + 1 : Int) = (T.length : Int) - start) :=
            fun hh => hz (hzero.mpr hh)
          rw [if_neg hz]
          by_cases h3 : ((m : Int) + 1 : Int) < (T.length : Int) - start
          · rw [if_pos (by push_cast; omega), if_pos (by omega)]
          · rw [if_neg (by push_cast; omega), if_neg (by omega)]

theorem advanceTurnGo_conscious (T : List TurnOrderEntry) (start : Int)
    (hs0 : 0 ≤ start) (hsn : start < T.length) :
    ∀ (fuel m : Nat) (e : EncounterState), e.turn_order = T →
      m + fuel = T.length →
      e.active_index = (start + m) % (T.length : Int) →
      (∃ j : Nat, m + 1 ≤ j ∧ j ≤ T.length ∧
        consciousAt T ((start + (j : Int)) % (T.length : Int))) →
      ∃ k : Nat, m + 1 ≤ k ∧ k ≤ T.length ∧
        consciousAt T ((start + (k : Int)) % (T.length : Int)) ∧
        (∀ j : Nat, m + 1 ≤ j → j < k →
          ¬consciousAt T ((start + (j : Int)) % (T.length : Int))) ∧
        advanceTurnGo start fuel e =
          { e with active_index := (start + (k : Int)) % (T.length : Int),
                   round := e.round + (if (m : Int) < (T.length : Int) - start ∧
                     (T.length : Int) - start ≤ (k : Int) then 1 else 0) } := by
  intro fuel
  induction fuel with
  | zero =>
      intro m e _ hm _ hex
      obtain ⟨j, hj1, hj2, _⟩ := hex
      exact absurd hj1 (by omega)
  | succ f ih =>
      intro m e hto hm hact hex
      have hn : 0 < ((T.length : Nat) : Int) := by
        omega
      have hlen : ((e.turn_order.length : Nat) : Int) = ((T.length : Nat) : Int) := by
        rw [hto]
      rw [advanceTurnGo_succ]
      simp only [hlen, hact, Int.emod_add_emod]
      have hrange : 0 ≤ (start + (m : Int) + 1) % (T.length : Int) ∧
          (start + (m : Int) + 1) % (T.length : Int) < (T.length : Int) :=
        ⟨Int.emod_nonneg _ (by omega), Int.emod_lt_of_pos _ hn⟩
      obtain ⟨entry, hget, hmem⟩ :=
        get_of_int_range T ((start + (m : Int) + 1) % (T.length : Int)) hrange.1
          (by omega)
      have hget2 : e.turn_order.get? (((start + (m : Int) + 1) % (T.length : Int)).toNat) =
          some entry := by
        rw [hto]
        exact hget
      rw [hget2]
      have hcast : (start + ((m + 1 : Nat) : Int)) % (T.length : Int) =
          (start + (m : Int) + 1) % (T.length : Int) := by
        push_cast
        ring_nf
      have hassoc : start + ((m : Int) + 1) = start + (m : Int) + 1 := by ring
      have hstart : (start + (m : Int) + 1) % (T.length : Int) = start ↔
          ((m : Int) + 1 : Int) = T.length := by
        rw [← hassoc]
        exact step_start_iff start (T.length : Int) ((m : Int) + 1) hs0 hsn
          (by omega) (by omega)
      have hzero : (start + (m : Int) + 1) % (T.length : Int) = 0 ↔
          ((m : Int) + 1 : Int) = (T.length : Int) - start := by
        rw [← hassoc]
        exact step_zero_iff start (T.length : Int) ((m : Int) + 1) hs0 hsn
          (by omega) (by omega)
      by_cases hcons : entry.is_conscious = true
      · simp only [hcons, if_true]
        refine ⟨m + 1, le_refl _, by omega, ?_, fun j h1 h2 => absurd h1 (by omega), ?_⟩
        · rw [hcast]
          exact ⟨entry, hget, hcons⟩
        · refine encounter_update_congr e _ _ _ _ hcast.symm ?_
          by_cases hz : (start + (m : Int) + 1) % (T.length : Int) = 0
          · have h2 := hzero.mp hz
            rw [if_pos hz, if_pos ⟨by omega, by push_cast; omega⟩]
          · have h2 : ¬(((m : Int) + 1 : Int) = (T.length : Int) - start) :=
              fun hh => hz (hzero.mpr hh)
            rw [if_neg hz, if_neg (fun hh => h2 (by push_cast at hh; omega))]
            omega
      · have hcf : entry.is_conscious = false := by
          cases h : entry.is_conscious
          · rfl
          · exact absurd h hcons
        simp only [hcf, Bool.false_eq_true, if_false]
        have hnc : ¬consciousAt T ((start + (m : Int) + 1) % (T.length : Int)) := by
          intro hc
          obtain ⟨entry2, hg2, hc2⟩ := hc
          rw [hget] at hg2
          cases hg2
          exact hcons hc2
        by_cases hbreak : (start + (m : Int) + 1) % (T.length : Int) = start
        · exfalso
          have hml : m + 1 = T.length := by
            have h2 := hstart.mp hbreak
            push_cast at h2
            omega
          obtain ⟨j, hj1, hj2, hjc⟩ := hex
          have hj : j = m + 1 := by omega
          subst hj
          rw [hcast] at hjc
          exact hnc hjc
        · rw [if_neg hbreak]
          have hex2 : ∃ j : Nat, (m + 1) + 1 ≤ j ∧ j ≤ T.length ∧
              consciousAt T ((start + (j : Int)) % (T.length : Int)) := by
            obtain ⟨j, hj1, hj2, hjc⟩ := hex
            refine ⟨j, ?_, hj2, hjc⟩
            rcases Nat.eq_or_lt_of_le hj1 with he | hlt
            · exfalso
              rw [← he, hcast] at hjc
              exact hnc hjc
            · omega
          obtain ⟨k, hk1, hk2, hkc, hkmin, hkeq⟩ := ih (m + 1)
            { e with active_index := (start + (m : Int) + 1) % (T.length : Int),
                     round := if (start + (m : Int) + 1) % (T.length : Int) = 0
                       then e.round + 1 else e.round }
            hto (by omega)
            (by show (start + (m : Int) + 1) % (T.length : Int) =
                  (start + ((m + 1 : Nat) : Int)) % (T.length : Int)
                rw [hcast])
            hex2
          refine ⟨k, by omega, hk2, hkc, ?_, ?_⟩
          · intro j h1 h2
            rcases Nat.eq_or_lt_of_le h1 with he | hlt
            · rw [← he, hcast]
              exact hnc
            · exact hkmin j (by omega) h2
          · rw [hkeq]
            refine encounter_update_congr e _ _ _ _ rfl ?_
            show (if (start + (m : Int) + 1) % (T.length : Int) = 0
                then e.round + 1 else e.round) +
                (if ((m + 1 : Nat) : Int) < (T.length : Int) - start ∧
                  (T.length : Int) - start ≤ (k : Int) then 1 else 0) =
              e.round + (if (m : Int) < (T.length : Int) - start ∧
                (T.length : Int) - start ≤ (k : Int) then 1 else 0)
            by_cases hz : (start + (m : Int) + 1) % (T.length : Int) = 0
            · have h2 := hzero.mp hz
              rw [if_pos hz, if_neg (fun hh => by push_cast at hh; omega),
                if_pos ⟨by omega, by omega⟩]
              omega
            · have h2 : ¬(((m : Int) + 1 : Int) = (T.length : Int) - start) :=
                fun hh => hz (hzero.mpr hh)
              rw [if_neg hz]
              by_cases h4 : (m : Int) < (T.length : Int) - start ∧
                  (T.length : Int) - start ≤ (k : Int)
              · rw [if_pos ⟨by push_cast; omega, h4.2⟩, if_pos h4]
              · rw [if_neg (fun hh => h4 ⟨by have := hh.1; push_cast at this; omega, hh.2⟩),
                  if_neg h4]

theorem stepsTo_spec (start i n : Int) (hn : 0 < n) (_hs : 0 ≤ start) (_hsn : start < n)
    (hi0 : 0 ≤ i) (hin : i < n) :
    1 ≤ stepsTo start i n ∧ stepsTo start i n ≤ n ∧ (start + stepsTo start i n) % n = i := by
  unfold stepsTo
  have hr : 0 ≤ (i - start - 1) % n ∧ (i - start - 1) % n < n :=
    ⟨Int.emod_nonneg _ (by omega), Int.emod_lt_of_pos _ hn⟩
  refine ⟨by omega, by omega, ?_⟩
  have hdef := Int.emod_def (i - start - 1) n
  have key : start + ((i - start - 1) % n + 1) = i + n * (-((i - start - 1) / n)) := by
    rw [hdef]
    ring
  rw [key, Int.add_mul_emod_self_left, Int.emod_eq_of_lt hi0 hin]

/-- C8 (amended). With a non-empty turn order and an in-range active index,
`_advance_turn` steps the active index forward modulo the length to the first
conscious entry (skipping unconscious ones), incrementing the round counter
exactly when the walk wraps past index 0; if every entry is unconscious the
index comes back to its starting value but the round counter is still
incremented once — the call is not a complete no-op. -/
theorem advance_turn_spec (e : EncounterState)
    (hne : e.turn_order ≠ [])
    (h0 : 0 ≤ e.active_index) (hlen : e.active_index < e.turn_order.length) :
    ((∀ u ∈ e.turn_order, u.is_conscious = false) →
      advance_turn e = { e with round := e.round + 1 }) ∧
    ((∃ u ∈ e.turn_order, u.is_conscious = true) →
      ∃ k : Nat, 1 ≤ k ∧ k ≤ e.turn_order.length ∧
        consciousAt e.turn_order
          ((e.active_index + (k : Int)) % (e.turn_order.length : Int)) ∧
        (∀ j : Nat, 1 ≤ j → j < k →
          ¬consciousAt e.turn_order
            ((e.active_index + (j : Int)) % (e.turn_order.length : Int))) ∧
        advance_turn e = { e with
          active_index := (e.active_index + (k : Int)) % (e.turn_order.length : Int),
          round := e.round + (if (e.turn_order.length : Int) - e.active_index ≤ (k : Int)
            then 1 else 0) }) := by
  have hie : e.turn_order.isEmpty = false := by
    cases h : e.turn_order with
    | nil => exact absurd h hne
    | cons a as => rfl
  have hadv : advance_turn e = advanceTurnGo e.active_index e.turn_order.length e := by
    unfold advance_turn
    rw [hie]
    simp
  have hnpos : 0 < e.turn_order.length := List.length_pos.mpr hne
  have hact0 : e.active_index = (e.active_index + ((0 : Nat) : Int)) %
      (e.turn_order.length : Int) := by
    push_cast
    rw [add_zero, Int.emod_eq_of_lt h0 hlen]
  constructor
  · intro hall
    rw [hadv]
    rw [advanceTurnGo_all_unconscious e.turn_order hall e.active_index h0 hlen
      e.turn_order.length 0 e rfl (by omega) (by omega) hact0]
    exact encounter_update_congr e _ _ _ _ rfl (by rw [if_pos (by push_cast; omega)])
  · intro hex
    obtain ⟨u, hu, huc⟩ := hex
    obtain ⟨i, hi, hiu⟩ := List.mem_iff_getElem.mp hu
    have hgetI : e.turn_order.get? i = some u := by
      rw [List.get?_eq_get hi, List.get_eq_getElem, hiu]
    have hsteps := stepsTo_spec e.active_index (i : Int) (e.turn_order.length : Int)
      (by omega) h0 hlen (by omega) (by omega)
    have hexB : ∃ j : Nat, 0 + 1 ≤ j ∧ j ≤ e.turn_order.length ∧
        consciousAt e.turn_order
          ((e.active_index + (j : Int)) % (e.turn_order.length : Int)) := by
      refine ⟨(stepsTo e.active_index (i : Int) (e.turn_order.length : Int)).toNat,
        by omega, by omega, ?_⟩
      have hcastJ : (((stepsTo e.active_index (i : Int)
          (e.turn_order.length : Int)).toNat : Nat) : Int) =
          stepsTo e.active_index (i : Int) (e.turn_order.length : Int) :=
        Int.toNat_of_nonneg (by omega)
      rw [hcastJ, hsteps.2.2]
      refine ⟨u, ?_, huc⟩
      rw [show ((i : Nat) : Int).toNat = i from by omega]
      exact hgetI
    obtain ⟨k, hk1, hk2, hkc, hkmin, hkeq⟩ :=
      advanceTurnGo_conscious e.turn_order e.active_index h0 hlen
        e.turn_order.length 0 e rfl (by omega) hact0 hexB
    refine ⟨k, by omega, hk2, hkc, fun j hj1 hjlt => hkmin j (by omega) hjlt, ?_⟩
    rw [hadv, hkeq]
    refine encounter_update_congr e _ _ _ _ rfl ?_
    by_cases hc : (e.turn_order.length : Int) - e.active_index ≤ (k : Int)
    · rw [if_pos ⟨by push_cast; omega, hc⟩, if_pos hc]
    · rw [if_neg (fun hh => hc hh.2), if_neg hc]

/-- Counterexample to C8 as stated: with every entry unconscious the call is
not a no-op — the round counter is incremented even though the active index
returns to its starting value. -/
theorem advance_turn_counterexample :
    (∀ u ∈ unconsciousEncounter.turn_order, u.is_conscious = false) ∧
    advance_turn unconsciousEncounter ≠ unconsciousEncounter ∧
    (advance_turn unconsciousEncounter).active_index =
      unconsciousEncounter.active_index ∧
    (advance_turn unconsciousEncounter).round = unconsciousEncounter.round + 1 := by
  decide

/-- Witness for C8 at a concrete encounter with a conscious entry. -/
theorem advance_turn_spec_witness :
    ∃ k : Nat, 1 ≤ k ∧ k ≤ walkEncounter.turn_order.length ∧
      consciousAt walkEncounter.turn_order
        ((walkEncounter.active_index + (k : Int)) %
          (walkEncounter.turn_order.length : Int)) ∧
      (∀ j : Nat, 1 ≤ j → j < k →
        ¬consciousAt walkEncounter.turn_order
          ((walkEncounter.active_index + (j : Int)) %
            (walkEncounter.turn_order.length : Int))) ∧
      advance_turn walkEncounter = { walkEncounter with
        active_index := (walkEncounter.active_index + (k : Int)) %
          (walkEncounter.turn_order.length : Int),
        round := walkEncounter.round +
          (if (walkEncounter.turn_order.length : Int) - walkEncounter.active_index ≤ (k : Int)
            then 1 else 0) } :=
  (advance_turn_spec walkEncounter (by decide) (by decide) (by decide)).2 (by decide)

/-- Witness for C7: the selected tier is one of the candidates. -/
theorem select_tier_spec_witness :
    tieredCreature.select_tier_for_level 4 "hard" none ∈ tieredCreature.available_tiers none :=
  (select_tier_spec tieredCreature 4 "hard" none).2.1

/-- Witness for C6 at the counterexample's input: the scaled creature comes
out at level 2. -/
theorem scaled_stat_block_target_level_witness :
    ∃ c, (witnessNPC.scaled_stat_block 2 "deadly").2 = some c ∧
      c.level = max (1 : Int) (min 20
        ((if (1 : Int) > 0 then 1 else witnessDefender.level) +
          pyTrunc (((2 - (if (1 : Int) > 0 then 1 else witnessDefender.level) : Int) : ℚ) *
            qget ({} : NPCScalingProfile).difficulty_multipliers "deadly" 1))) :=
  scaled_stat_block_target_level witnessNPC witnessDefender {} 2 "deadly" rfl rfl

theorem not_any_alive (l : List Creature) :
    ¬(l.any (fun a => a.is_alive) = true) ↔ ∀ a ∈ l, a.is_alive = false := by
  rw [List.any_eq_true]
  push_neg
  constructor
  · intro h a ha
    cases hb : a.is_alive
    · rfl
    · exact absurd hb (h a ha)
  · intro h a ha
    rw [h a ha]
    exact Bool.false_ne_true

theorem filter_alive_empty (l : List Creature) :
    ((l.filter (fun c => c.is_alive)).isEmpty = true) ↔ ∀ c ∈ l, c.is_alive = false := by
  rw [List.isEmpty_iff, List.filter_eq_nil_iff]
  constructor
  · intro h a ha
    cases hb : a.is_alive
    · rfl
    · exact absurd hb (h a ha)
  · intro h a ha
    rw [h a ha]
    exact Bool.false_ne_true

/-- `_check_end_conditions` yields "defeat" exactly when the PC and every ally
are down, and "victory" exactly when the defeat condition fails and every
hostile creature is down (defeat takes precedence in the overlap). -/
theorem check_end_spec (pc : PlayerCharacter) (creatures : List Creature)
    (e : EncounterState) (allies : List Creature) :
    ((check_end_conditions pc creatures e allies).2 = some EndState.defeat ↔
      pc.is_alive = false ∧ ∀ a ∈ allies, a.is_alive = false) ∧
    ((check_end_conditions pc creatures e allies).2 = some EndState.victory ↔
      ¬(pc.is_alive = false ∧ ∀ a ∈ allies, a.is_alive = false) ∧
      ∀ c ∈ creatures, c.is_alive = false) := by
  unfold check_end_conditions
  have hpcd : (¬(pc.is_alive = true)) ↔ pc.is_alive = false := by simp
  by_cases hd : (¬(pc.is_alive = true) ∧ ¬(allies.any (fun a => a.is_alive) = true))
  · rw [if_pos hd]
    have hd2 : pc.is_alive = false ∧ ∀ a ∈ allies, a.is_alive = false :=
      ⟨hpcd.mp hd.1, (not_any_alive allies).mp hd.2⟩
    constructor
    · exact ⟨fun _ => hd2, fun _ => rfl⟩
    · constructor
      · intro hcontra
        cases hcontra
      · intro hh
        exact absurd hd2 hh.1
  · rw [if_neg hd]
    have hd2 : ¬(pc.is_alive = false ∧ ∀ a ∈ allies, a.is_alive = false) := by
      intro hh
      exact hd ⟨hpcd.mpr hh.1, (not_any_alive allies).mpr hh.2⟩
    by_cases hv : ((creatures.filter (fun c => c.is_alive)).isEmpty = true)
    · rw [if_pos hv]
      constructor
      · constructor
        · intro hcontra
          cases hcontra
        · intro hh
          exact absurd hh hd2
      · exact ⟨fun _ => ⟨hd2, (filter_alive_empty creatures).mp hv⟩, fun _ => rfl⟩
    · rw [if_neg hv]
      constructor
      · constructor
        · intro hcontra
          cases hcontra
        · intro hh
          exact absurd hh hd2
      · constructor
        · intro hcontra
          cases hcontra
        · intro hh
          exact absurd ((filter_alive_empty creatures).mpr hh.2) hv

theorem outcomeSound_of_ne (st : TurnState) (h1 : st.outcome ≠ CombatStatus.victory)
    (h2 : st.outcome ≠ CombatStatus.defeat) : outcomeSound st :=
  ⟨fun hc => absurd hc h1, fun hc => absurd hc h2⟩

theorem outcomeSound_of_ongoing (st : TurnState)
    (h : st.outcome = CombatStatus.ongoing) : outcomeSound st :=
  outcomeSound_of_ne st
    (fun hc => CombatStatus.noConfusion (h.symm.trans hc))
    (fun hc => CombatStatus.noConfusion (h.symm.trans hc))

theorem outcomeSound_mk (st : TurnState)
    (h1 : st.outcome = CombatStatus.victory → ∀ c ∈ st.creatures, c.is_alive = false)
    (h2 : st.outcome = CombatStatus.defeat →
      st.pc.is_alive = false ∧ ∀ a ∈ st.allies, a.is_alive = false) :
    outcomeSound st := ⟨h1, h2⟩

theorem applyEnd_sound (st2 : TurnState) (pcX : PlayerCharacter)
    (csX : List Creature) (eX : EncounterState) (alX : List Creature)
    (res : Option EndState)
    (hres : res = (check_end_conditions pcX csX eX alX).2)
    (hpc : st2.pc = pcX) (hcs : st2.creatures = csX) (hal : st2.allies = alX)
    (hout : st2.outcome = CombatStatus.ongoing) :
    outcomeSound (applyEnd st2 res) := by
  cases res with
  | none => exact outcomeSound_of_ongoing _ hout
  | some es =>
      cases es with
      | victory =>
          refine outcomeSound_mk _ (fun _ c hc => ?_) (fun hdef => ?_)
          · have hvic := ((check_end_spec pcX csX eX alX).2).mp hres.symm
            have hc2 : c ∈ st2.creatures := hc
            rw [hcs] at hc2
            exact hvic.2 c hc2
          · exact CombatStatus.noConfusion hdef
      | defeat =>
          refine outcomeSound_mk _ (fun hvic => ?_) (fun _ => ?_)
          · exact CombatStatus.noConfusion hvic
          · have hdef := ((check_end_spec pcX csX eX alX).1).mp hres.symm
            refine ⟨?_, ?_⟩
            · have hp : st2.pc.is_alive = false := by
                rw [hpc]
                exact hdef.1
              exact hp
            · intro a ha
              have ha2 : a ∈ st2.allies := ha
              rw [hal] at ha2
              exact hdef.2 a ha2

theorem afterCheck_sound (st : TurnState)
    (hout : st.outcome = CombatStatus.ongoing) :
    outcomeSound (afterCheck st) := by
  unfold afterCheck
  exact applyEnd_sound _ st.pc st.creatures st.encounter st.allies _ rfl rfl rfl rfl hout

theorem processCommands_sound (actor : CombatantRef) :
    ∀ (cmds : List Command) (st st2 : TurnState),
      processCommands actor cmds st = some st2 → outcomeSound st → outcomeSound st2 := by
  intro cmds
  induction cmds with
  | nil =>
      intro st st2 h hs
      cases h
      exact hs
  | cons cmd rest ih =>
      intro st st2 h hs
      unfold processCommands at h
      by_cases hguard : st.remaining_ap ≤ 0 ∨ st.outcome ≠ CombatStatus.ongoing
      · rw [if_pos hguard] at h
        cases h
        exact hs
      · rw [if_neg hguard] at h
        have hongoing : st.outcome = CombatStatus.ongoing := by
          push_neg at hguard
          exact hguard.2
        cases cmd with
        | attack target action cost =>
            simp only at h
            cases hl1 : lookup_combatant actor st.pc st.creatures (some st.allies) with
            | none =>
                rw [hl1] at h
                exact Option.noConfusion h
            | some attacker =>
                simp only [hl1] at h
                cases hl2 : lookup_combatant target st.pc st.creatures (some st.allies) with
                | none =>
                    rw [hl2] at h
                    exact Option.noConfusion h
                | some defender =>
                    simp only [hl2] at h
                    cases hr : resolve_attack attacker defender action st.rng with
                    | none =>
                        rw [hr] at h
                        exact Option.noConfusion h
                    | some trip =>
                        obtain ⟨defender2, result, rng2⟩ := trip
                        simp only [hr] at h
                        exact ih _ _ h (afterCheck_sound _ hongoing)
        | item target consumable cost =>
            simp only at h
            cases hl1 : lookup_combatant actor st.pc st.creatures (some st.allies) with
            | none =>
                rw [hl1] at h
                exact Option.noConfusion h
            | some user =>
                simp only [hl1] at h
                cases hl2 : lookup_combatant target st.pc st.creatures (some st.allies) with
                | none =>
                    rw [hl2] at h
                    exact Option.noConfusion h
                | some tgt =>
                    simp only [hl2] at h
                    exact ih _ _ h (outcomeSound_of_ongoing _ hongoing)
        | defend cost =>
            simp only at h
            exact ih _ _ h (outcomeSound_of_ongoing _ hongoing)
        | flee cost =>
            simp only at h
            cases h
            exact outcomeSound_of_ne _
              (fun hc => CombatStatus.noConfusion hc)
              (fun hc => CombatStatus.noConfusion hc)
        | other =>
            simp only at h
            exact ih _ _ h hs

theorem process_result_sound (st : TurnState) (hook : Bool) (hs : outcomeSound st)
    (res : EncounterResult)
    (hres : res = { state := advance_turn st.encounter, pc := st.pc,
                    creatures := st.creatures, allies := st.allies,
                    remaining_ap := st.remaining_ap, log := st.log, status := st.outcome,
                    rewards_invocations :=
                      if st.outcome = CombatStatus.victory ∧ hook = true then 1 else 0,
                    rng := st.rng }) :
    res.rewards_invocations =
      (if res.status = CombatStatus.victory ∧ hook = true then 1 else 0) ∧
    (res.status = CombatStatus.victory → ∀ c ∈ res.creatures, c.is_alive = false) ∧
    (res.status = CombatStatus.defeat →
      res.pc.is_alive = false ∧ ∀ a ∈ res.allies, a.is_alive = false) := by
  subst hres
  exact ⟨rfl, hs.1, hs.2⟩

/-- **C9** (corrected): in `process_turn_commands` the end conditions evaluated
after each attack give "defeat" exactly when the player character and every
ally are down, and "victory" exactly when every hostile creature is down *and
the defeat condition does not hold* — defeat takes precedence when both hold;
the rewards hook runs exactly once when the returned status is "victory" and
never otherwise; a "victory" status certifies every hostile creature down and
a "defeat" status certifies the player character and every ally down. -/
theorem process_turn_commands_end_conditions
    (encounter : EncounterState) (pc : PlayerCharacter) (creatures : List Creature)
    (commands : List Command) (rng : Rng) (hook : Bool)
    (allies : Option (List Creature)) (res : EncounterResult)
    (h : process_turn_commands encounter pc creatures commands rng hook allies = some res) :
    (∀ (p : PlayerCharacter) (cs : List Creature) (e : EncounterState)
        (al : List Creature),
      ((check_end_conditions p cs e al).2 = some EndState.defeat ↔
        p.is_alive = false ∧ ∀ a ∈ al, a.is_alive = false) ∧
      ((check_end_conditions p cs e al).2 = some EndState.victory ↔
        ¬(p.is_alive = false ∧ ∀ a ∈ al, a.is_alive = false) ∧
        ∀ c ∈ cs, c.is_alive = false)) ∧
    res.rewards_invocations =
      (if res.status = CombatStatus.victory ∧ hook = true then 1 else 0) ∧
    (res.status = CombatStatus.victory → ∀ c ∈ res.creatures, c.is_alive = false) ∧
    (res.status = CombatStatus.defeat →
      res.pc.is_alive = false ∧ ∀ a ∈ res.allies, a.is_alive = false) := by
  refine ⟨fun p cs e al => check_end_spec p cs e al, ?_⟩
  cases allies with
  | none =>
      unfold process_turn_commands at h
      cases hpg : pyListGet encounter.turn_order encounter.active_index with
      | none =>
          rw [hpg] at h
          exact Option.noConfusion h
      | some entry =>
          simp only [hpg] at h
          cases hpl : processCommands entry.ref commands
              { pc := pc, creatures := creatures, allies := encounter.meta_allies,
                encounter := encounter, remaining_ap := 3,
                outcome := CombatStatus.ongoing, log := [], rng := rng } with
          | none =>
              rw [hpl] at h
              exact Option.noConfusion h
          | some st =>
              have hsound : outcomeSound st :=
                processCommands_sound entry.ref commands _ st hpl
                  (outcomeSound_of_ongoing _ rfl)
              simp only [hpl] at h
              injection h with h2
              subst h2
              exact process_result_sound st hook hsound _ rfl
  | some al =>
      unfold process_turn_commands at h
      cases hpg : pyListGet encounter.turn_order encounter.active_index with
      | none =>
          rw [hpg] at h
          exact Option.noConfusion h
      | some entry =>
          simp only [hpg] at h
          cases hpl : processCommands entry.ref commands
              { pc := pc, creatures := creatures, allies := al,
                encounter := encounter, remaining_ap := 3,
                outcome := CombatStatus.ongoing, log := [], rng := rng } with
          | none =>
              rw [hpl] at h
              exact Option.noConfusion h
          | some st =>
              have hsound : outcomeSound st :=
                processCommands_sound entry.ref commands _ st hpl
                  (outcomeSound_of_ongoing _ rfl)
              simp only [hpl] at h
              injection h with h2
              subst h2
              exact process_result_sound st hook hsound _ rfl

/-- Counterexample for C9: with the player character already down and no
allies, an attack that fells the last hostile creature leaves every hostile
down, yet the status is "defeat", not "victory", and the rewards hook never
runs — the defeat check has precedence over the victory check. -/
theorem process_turn_rewards_counterexample :
    ∃ res : EncounterResult,
      process_turn_commands cxEncounter deadHeroPC [loneFoe] [cxAttack]
        [10, 3] true none = some res ∧
      (∀ c ∈ res.creatures, c.is_alive = false) ∧
      res.status ≠ CombatStatus.victory ∧
      res.status = CombatStatus.defeat ∧
      res.rewards_invocations = 0 :=
  ⟨_, rfl, by decide, by decide, by decide, by decide⟩

/-- Witness for C9 on the victory run: the rewards hook runs exactly once and
every hostile creature ends down. -/
theorem process_turn_commands_end_conditions_witness :
    cxVictoryRes.rewards_invocations =
      (if cxVictoryRes.status = CombatStatus.victory ∧ (true : Bool) = true
       then 1 else 0) ∧
    (cxVictoryRes.status = CombatStatus.victory →
      ∀ c ∈ cxVictoryRes.creatures, c.is_alive = false) :=
  have h := process_turn_commands_end_conditions cxEncounter heroPC [loneFoe]
    [cxAttack] [10, 3] true none cxVictoryRes (Option.some_get (by decide)).symm
  ⟨h.2.1, h.2.2.1⟩

end ProphecyCM
